import Mathlib

/-!
Verification development for the UltiUI log-normalisation and alerting core.

The Python source under `src/log_manager.py` and `src/alerts_service.py` is
shallowly embedded below.  Conventions used throughout:

* Python `datetime` values are modelled as explicit integer timestamps
  (seconds); ISO-8601 strings stored by the alerts service round-trip through
  `datetime.fromisoformat`, so they are modelled directly as the integer
  instants they denote.  `datetime.now()` becomes an explicit `now` argument.
* Python dicts keyed by alert id are modelled as insertion-ordered association
  lists; `deque(maxlen=1000)` is modelled as a list with an explicit bounded
  push.
* A dict key that may be absent is modelled as an `Option` field.
* `hashlib.md5(...).hexdigest()` is implemented below as a genuine executable
  MD5 over the UTF-8 bytes of the input string.
* Each `re.sub` / `re.match` / `re.search` used by the source is embedded as an
  explicit left-to-right scanner over the character list, reproducing the
  leftmost-match, non-overlapping, backtracking semantics of the concrete
  regular expression it implements (including word boundaries and
  look-around where the source regex has them).
-/

/-! ### Character classes and small utilities -/

def isDigitC (c : Char) : Bool := decide ('0' ≤ c ∧ c ≤ '9')

def isLowerC (c : Char) : Bool := decide ('a' ≤ c ∧ c ≤ 'z')

def isUpperC (c : Char) : Bool := decide ('A' ≤ c ∧ c ≤ 'Z')

/-- `\w` of Python `re` restricted to ASCII: letters, digits, underscore. -/
def isWordC (c : Char) : Bool := isDigitC c || isLowerC c || isUpperC c || c = '_'

/-- Python `str.isspace`-style whitespace as matched by `\s` / `\S`. -/
def isSpaceC (c : Char) : Bool :=
  c = ' ' || c = '\t' || c = '\n' || c = '\x0d' || c = '\x0b' || c = '\x0c'

/-- Lowercase hex digit class `[0-9a-f]`. -/
def isHexLowC (c : Char) : Bool := isDigitC c || decide ('a' ≤ c ∧ c ≤ 'f')

def digitChar (d : Nat) : Char :=
  match d with
  | 0 => '0' | 1 => '1' | 2 => '2' | 3 => '3' | 4 => '4'
  | 5 => '5' | 6 => '6' | 7 => '7' | 8 => '8' | 9 => '9'
  | _ => '*'

/-- Decimal digits, most significant first, with structural fuel so the
kernel can evaluate it (`fuel > n` suffices). -/
def decD : Nat → Nat → List Char
  | 0, _ => []
  | fuel + 1, n =>
    if n < 10 then [digitChar n]
    else decD fuel (n / 10) ++ [digitChar (n % 10)]

/-- Decimal digits of a natural number, most significant first. -/
def decDigits (n : Nat) : List Char := decD (n + 1) n

/-- Two-digit zero-padded rendering of `n % 100`. -/
def pad2 (n : Nat) : List Char :=
  [digitChar (n % 100 / 10), digitChar (n % 10)]

/-- Four-digit zero-padded rendering of `n % 10000`. -/
def pad4 (n : Nat) : List Char :=
  [digitChar (n % 10000 / 1000), digitChar (n % 1000 / 100),
   digitChar (n % 100 / 10), digitChar (n % 10)]

/-- Does `l` start with `p`? -/
def listStarts : List Char → List Char → Bool
  | [], _ => true
  | _ :: _, [] => false
  | p :: ps, c :: cs => p = c && listStarts ps cs

/-- Does `needle` occur as a contiguous substring of `hay`?  (Python `in`.) -/
def occursIn (needle : List Char) (hay : List Char) : Bool :=
  match hay with
  | [] => listStarts needle []
  | _ :: t => listStarts needle hay || occursIn needle t

/-- String-level containment, Python `needle in hay`. -/
def containsSub (hay needle : String) : Bool := occursIn needle.data hay.data

def catLists {α : Type} : List (List α) → List α :=
  fun ls => ls.foldr (· ++ ·) []

/-! ### MD5 (`hashlib.md5(...).hexdigest()`)

Executable MD5 per RFC 1321, over `Nat` with explicit reduction mod `2 ^ 32`.
-/

def m32 : Nat := 4294967296

def not32 (x : Nat) : Nat := Nat.xor (x % m32) 4294967295

def rotl32 (x s : Nat) : Nat :=
  ((x % m32) * 2 ^ s + (x % m32) / 2 ^ (32 - s)) % m32

/-- The 64 sine-derived MD5 constants. -/
def md5K : List Nat :=
  [0xd76aa478, 0xe8c7b756, 0x242070db, 0xc1bdceee,
   0xf57c0faf, 0x4787c62a, 0xa8304613, 0xfd469501,
   0x698098d8, 0x8b44f7af, 0xffff5bb1, 0x895cd7be,
   0x6b901122, 0xfd987193, 0xa679438e, 0x49b40821,
   0xf61e2562, 0xc040b340, 0x265e5a51, 0xe9b6c7aa,
   0xd62f105d, 0x02441453, 0xd8a1e681, 0xe7d3fbc8,
   0x21e1cde6, 0xc33707d6, 0xf4d50d87, 0x455a14ed,
   0xa9e3e905, 0xfcefa3f8, 0x676f02d9, 0x8d2a4c8a,
   0xfffa3942, 0x8771f681, 0x6d9d6122, 0xfde5380c,
   0xa4beea44, 0x4bdecfa9, 0xf6bb4b60, 0xbebfbc70,
   0x289b7ec6, 0xeaa127fa, 0xd4ef3085, 0x04881d05,
   0xd9d4d039, 0xe6db99e5, 0x1fa27cf8, 0xc4ac5665,
   0xf4292244, 0x432aff97, 0xab9423a7, 0xfc93a039,
   0x655b59c3, 0x8f0ccc92, 0xffeff47d, 0x85845dd1,
   0x6fa87e4f, 0xfe2ce6e0, 0xa3014314, 0x4e0811a1,
   0xf7537e82, 0xbd3af235, 0x2ad7d2bb, 0xeb86d391]

/-- Per-round left-rotation amounts. -/
def md5S : List Nat :=
  [7, 12, 17, 22, 7, 12, 17, 22, 7, 12, 17, 22, 7, 12, 17, 22,
   5, 9, 14, 20, 5, 9, 14, 20, 5, 9, 14, 20, 5, 9, 14, 20,
   4, 11, 16, 23, 4, 11, 16, 23, 4, 11, 16, 23, 4, 11, 16, 23,
   6, 10, 15, 21, 6, 10, 15, 21, 6, 10, 15, 21, 6, 10, 15, 21]

/-- UTF-8 encoding of one character (Python `str.encode()`). -/
def encodeChar (c : Char) : List Nat :=
  let n := c.toNat
  if n < 128 then [n]
  else if n < 2048 then
    [192 + n / 64, 128 + n % 64]
  else if n < 65536 then
    [224 + n / 4096, 128 + n / 64 % 64, 128 + n % 64]
  else
    [240 + n / 262144, 128 + n / 4096 % 64, 128 + n / 64 % 64, 128 + n % 64]

def strBytes (s : String) : List Nat := catLists (s.data.map encodeChar)

/-- MD5 padding: `0x80`, zeros to 56 mod 64, then the 64-bit little-endian
bit length. -/
def md5Pad (msg : List Nat) : List Nat :=
  let len := msg.length
  let padLen := (55 + 64 - len % 64) % 64 + 1
  let bitLen := (len * 8) % (2 ^ 64)
  msg ++ [128] ++ List.replicate (padLen - 1) 0 ++
    (List.range 8).map (fun i => bitLen / 2 ^ (8 * i) % 256)

/-- Split a byte list into the sixteen little-endian 32-bit words of one
64-byte block. -/
def md5Words (block : List Nat) : List Nat :=
  (List.range 16).map (fun i =>
    let b := fun j => block.getD (4 * i + j) 0
    b 0 + b 1 * 256 + b 2 * 65536 + b 3 * 16777216)

/-- One MD5 round step. -/
def md5Step (M : List Nat) (st : Nat × Nat × Nat × Nat) (i : Nat) :
    Nat × Nat × Nat × Nat :=
  let (a, b, c, d) := st
  let f :=
    if i < 16 then Nat.lor (Nat.land b c) (Nat.land (not32 b) d)
    else if i < 32 then Nat.lor (Nat.land d b) (Nat.land (not32 d) c)
    else if i < 48 then Nat.xor (Nat.xor b c) d
    else Nat.xor c (Nat.lor b (not32 d))
  let g :=
    if i < 16 then i
    else if i < 32 then (5 * i + 1) % 16
    else if i < 48 then (3 * i + 5) % 16
    else (7 * i) % 16
  let temp := (a + f + md5K.getD i 0 + M.getD g 0) % m32
  let bNew := (b + rotl32 temp (md5S.getD i 0)) % m32
  (d, bNew, b, c)

/-- Process one 64-byte block. -/
def md5Block (st : Nat × Nat × Nat × Nat) (block : List Nat) :
    Nat × Nat × Nat × Nat :=
  let M := md5Words block
  let (a, b, c, d) := (List.range 64).foldl (md5Step M) st
  let (a0, b0, c0, d0) := st
  ((a0 + a) % m32, (b0 + b) % m32, (c0 + c) % m32, (d0 + d) % m32)

/-- Fold `md5Block` over consecutive 64-byte chunks (structural fuel;
`fuel ≥ bytes.length` suffices). -/
def md5BlocksF : Nat → Nat × Nat × Nat × Nat → List Nat → Nat × Nat × Nat × Nat
  | 0, st, _ => st
  | _, st, [] => st
  | fuel + 1, st, b :: rest =>
    if (b :: rest).length ≤ 64 then md5Block st (b :: rest)
    else md5BlocksF fuel (md5Block st ((b :: rest).take 64)) ((b :: rest).drop 64)

def md5Blocks (st : Nat × Nat × Nat × Nat) (bytes : List Nat) :
    Nat × Nat × Nat × Nat :=
  md5BlocksF bytes.length st bytes

def hexDigitChar (d : Nat) : Char :=
  match d with
  | 0 => '0' | 1 => '1' | 2 => '2' | 3 => '3' | 4 => '4'
  | 5 => '5' | 6 => '6' | 7 => '7' | 8 => '8' | 9 => '9'
  | 10 => 'a' | 11 => 'b' | 12 => 'c' | 13 => 'd' | 14 => 'e'
  | _ => 'f'

/-- Little-endian hex rendering of a 32-bit word (MD5 digest order). -/
def word32HexLE (x : Nat) : List Char :=
  catLists ((List.range 4).map (fun i =>
    let byte := x / 2 ^ (8 * i) % 256
    [hexDigitChar (byte / 16), hexDigitChar (byte % 16)]))

/-- `hashlib.md5(s.encode()).hexdigest()`. -/
def md5Hex (s : String) : String :=
  let (a, b, c, d) :=
    md5Blocks (0x67452301, 0xefcdab89, 0x98badcfe, 0x10325476)
      (md5Pad (strBytes s))
  String.mk (word32HexLE a ++ word32HexLE b ++ word32HexLE c ++ word32HexLE d)

example : md5Hex "" = "d41d8cd98f00b204e9800998ecf8427e" := by decide

example : md5Hex "abc" = "900150983cd24fb0d6963f7d28e17f72" := by decide

/-! ### AlertsService (`src/alerts_service.py`)

`_normalize_message` applies, in order: three literal-phrase checks, then
`re.sub` for `\b\d{2}:\d{2}:\d{2}\b → TIME`, `\b[A-Z][a-z]{2} \d{2}\b → DATE`,
`(?<!\d)(\d+(\.\d+)?(?!\%)) → NUM`, the UUID shape `→ UUID`, and
`0x[0-9a-f]+ → HEX`.  Each substitution is embedded as a structural
left-to-right scanner.
-/

/-- Python `\b` seen from the left of a pattern starting with a word
character: the previous character (None at string start) must not be a word
character. -/
def nonWordO : Option Char → Bool
  | none => true
  | some c => !isWordC c

/-- `re.sub(r'\b\d{2}:\d{2}:\d{2}\b', 'TIME', ·)`: `prev` is the character
before the current position in the original string. -/
def aTime (prev : Option Char) : List Char → List Char
  | c0 :: c1 :: c2 :: c3 :: c4 :: c5 :: c6 :: c7 :: rest =>
    if nonWordO prev && isDigitC c0 && isDigitC c1 && c2 == ':' &&
        isDigitC c3 && isDigitC c4 && c5 == ':' && isDigitC c6 && isDigitC c7 &&
        nonWordO rest.head? then
      'T' :: 'I' :: 'M' :: 'E' :: aTime (some c7) rest
    else
      c0 :: aTime (some c0) (c1 :: c2 :: c3 :: c4 :: c5 :: c6 :: c7 :: rest)
  | c :: rest => c :: aTime (some c) rest
  | [] => []

/-- `re.sub(r'\b[A-Z][a-z]{2} \d{2}\b', 'DATE', ·)`. -/
def aDate (prev : Option Char) : List Char → List Char
  | c0 :: c1 :: c2 :: c3 :: c4 :: c5 :: rest =>
    if nonWordO prev && isUpperC c0 && isLowerC c1 && isLowerC c2 &&
        c3 == ' ' && isDigitC c4 && isDigitC c5 && nonWordO rest.head? then
      'D' :: 'A' :: 'T' :: 'E' :: aDate (some c5) rest
    else
      c0 :: aDate (some c0) (c1 :: c2 :: c3 :: c4 :: c5 :: rest)
  | c :: rest => c :: aDate (some c) rest
  | [] => []

def numStr : List Char := ['N', 'U', 'M']

/-- Scanner state for `re.sub(r'(?<!\d)(\d+(\.\d+)?(?!\%))', 'NUM', ·)`:
either outside a candidate match (tracking whether the previous character was
a digit, for the look-behind), inside the integer run, just after a dot, or
inside the fraction run.  Accumulators hold the consumed digits in reverse. -/
inductive NumSt
  | outside (prevDigit : Bool)
  | run (acc : List Char)
  | dot (acc : List Char)
  | frac (acc : List Char)

/-- What an end of input emits for each `NumSt` state (a pending integer run
or fraction matches, since the `(?!\%)` look-ahead succeeds at end). -/
def numFlush : NumSt → List Char
  | .outside _ => []
  | .run _ => numStr
  | .dot _ => numStr ++ ['.']
  | .frac _ => numStr

/-- The NUM substitution itself, with full backtracking semantics of
`\d+(\.\d+)?` against the `(?!\%)` look-ahead: a run followed by `%` gives up
its last digit (`25% → NUM5%`, `5% → 5%`), a fraction followed by `%` gives up
its last fraction digit (`12.55% → NUM5%`, `12.5% → NUM.5%`). -/
def numGo : NumSt → List Char → List Char
  | st, [] => numFlush st
  | .outside p, c :: rest =>
    if isDigitC c && !p then numGo (.run [c]) rest
    else c :: numGo (.outside (isDigitC c)) rest
  | .run acc, c :: rest =>
    if isDigitC c then numGo (.run (c :: acc)) rest
    else if c == '.' then numGo (.dot acc) rest
    else if c == '%' then
      if acc.length ≥ 2 then
        numStr ++ acc.headD '0' :: '%' :: numGo (.outside false) rest
      else
        acc.reverse ++ '%' :: numGo (.outside false) rest
    else numStr ++ c :: numGo (.outside false) rest
  | .dot acc, c :: rest =>
    if isDigitC c then numGo (.frac [c]) rest
    else numStr ++ '.' :: c :: numGo (.outside false) rest
  | .frac acc, c :: rest =>
    if isDigitC c then numGo (.frac (c :: acc)) rest
    else if c == '%' then
      if acc.length ≥ 2 then
        numStr ++ acc.headD '0' :: '%' :: numGo (.outside false) rest
      else
        numStr ++ '.' :: acc.headD '0' :: '%' :: numGo (.outside false) rest
    else numStr ++ c :: numGo (.outside false) rest

/-- One segment of the UUID shape: exactly `n` lowercase-hex characters. -/
def uuidSeg (cs : List Char) (n : Nat) : Bool :=
  (cs.take n).length == n && (cs.take n).all isHexLowC

/-- Does a UUID-shaped token (`8-4-4-4-12` lowercase hex) start here? -/
def uuidTest (cs : List Char) : Bool :=
  uuidSeg cs 8 && (cs.drop 8).headD ' ' == '-' &&
  uuidSeg (cs.drop 9) 4 && (cs.drop 13).headD ' ' == '-' &&
  uuidSeg (cs.drop 14) 4 && (cs.drop 18).headD ' ' == '-' &&
  uuidSeg (cs.drop 19) 4 && (cs.drop 23).headD ' ' == '-' &&
  uuidSeg (cs.drop 24) 12

def uuidGo : Nat → List Char → List Char
  | 0, cs => cs
  | _ + 1, [] => []
  | fuel + 1, c :: rest =>
    if uuidTest (c :: rest) then
      'U' :: 'U' :: 'I' :: 'D' :: uuidGo fuel ((c :: rest).drop 36)
    else c :: uuidGo fuel rest

/-- `re.sub` of the UUID shape (identical regex in `alerts_service.py` and
`log_manager.py`). -/
def subUuid (cs : List Char) : List Char := uuidGo cs.length cs

def hexStr : List Char := ['H', 'E', 'X']

/-- Scanner state for `re.sub(r'0x[0-9a-f]+', 'HEX', ·)`: outside, after a
`0`, after `0x`, or inside the hex run. -/
inductive HexSt
  | hout
  | hz
  | hzx
  | hrun

def hexFlush : HexSt → List Char
  | .hout => []
  | .hz => ['0']
  | .hzx => ['0', 'x']
  | .hrun => hexStr

/-- The HEX substitution (identical regex in both source files). -/
def hexGo : HexSt → List Char → List Char
  | st, [] => hexFlush st
  | .hout, c :: rest =>
    if c == '0' then hexGo .hz rest else c :: hexGo .hout rest
  | .hz, c :: rest =>
    if c == 'x' then hexGo .hzx rest
    else if c == '0' then '0' :: hexGo .hz rest
    else '0' :: c :: hexGo .hout rest
  | .hzx, c :: rest =>
    if isHexLowC c then hexGo .hrun rest
    else if c == '0' then '0' :: 'x' :: hexGo .hz rest
    else '0' :: 'x' :: c :: hexGo .hout rest
  | .hrun, c :: rest =>
    if isHexLowC c then hexGo .hrun rest
    else if c == '0' then hexStr ++ hexGo .hz rest
    else hexStr ++ c :: hexGo .hout rest

def subHex (cs : List Char) : List Char := hexGo .hout cs

/-- `AlertsService._normalize_message`. -/
def normalizeMessage (message : String) : String :=
  if containsSub message "Build has completed and is waiting for cleanup" then
    "Build has completed and is waiting for cleanup"
  else if containsSub message "Next update check scheduled for" then
    "Next update check scheduled"
  else if containsSub message "Stardust service connection issues" then
    "Stardust service connection issues"
  else
    String.mk
      (subHex (subUuid (numGo (.outside false) (aDate none (aTime none message.data)))))

/-- The `details` dict attached to alerts by `log_manager.process_logs`
(`{'timestamp': ..., 'raw_message': ...}` — the only details shape
constructed in the repository). -/
structure AlertDetails where
  timestamp : String
  raw_message : String
deriving DecidableEq, Repr

/-- An incoming `alert_data` dict before `process_alert` stamps it: `id` is
the precomputed hash from `log_manager` (overwritten by `process_alert` at
line 58 before any use, hence carried only for fidelity), `details` is
optional. -/
structure Candidate where
  cid : Option String := none
  type : String
  message : String
  details : Option AlertDetails := none
deriving DecidableEq, Repr

/-- `AlertsService._generate_alert_id`. -/
def generateAlertId (c : Candidate) : String :=
  let message :=
    match c.details with
    | some d => d.raw_message
    | none => c.message
  md5Hex (c.type ++ "-" ++ normalizeMessage message)

/-- A stored alert (the stamped `alert_data` dict).  Timestamps are integer
seconds standing for the stored ISO-8601 strings. -/
structure Alert where
  id : String
  type : String
  message : String
  details : Option AlertDetails
  created_at : Int
  updated_at : Int
  resolved_at : Option Int := none
  occurrence_count : Nat
deriving DecidableEq, Repr

/-- A history record; the `resolved` key is only present (`true`) on
resolution records, so key absence is modelled as `false`, and an absent
`resolved_at`/empty `details` as `none`. -/
structure HistEntry where
  id : String
  type : String
  message : String
  created_at : Int
  updated_at : Int
  resolved_at : Option Int := none
  details : Option AlertDetails
  occurrence_count : Nat
  resolved : Bool := false
deriving DecidableEq, Repr

/-- `AlertsService` state: `active_alerts` and `local_alerts` are
insertion-ordered dicts, `alert_history` a `deque(maxlen=1000)`. -/
structure AState where
  active_alerts : List (String × Alert) := []
  alert_history : List HistEntry := []
  local_alerts : List (String × Alert) := []
deriving DecidableEq, Repr

/-- `deque(maxlen=1000).append`. -/
def pushHist (h : List HistEntry) (e : HistEntry) : List HistEntry :=
  if h.length < 1000 then h ++ [e] else h.drop (h.length + 1 - 1000) ++ [e]

/-- In-place dict update (preserves insertion order, like Python dicts). -/
def aupdate (m : List (String × Alert)) (k : String) (v : Alert) :
    List (String × Alert) :=
  m.map (fun p => if p.1 == k then (k, v) else p)

/-- `del d[k]`. -/
def adelete (m : List (String × Alert)) (k : String) : List (String × Alert) :=
  m.filter (fun p => p.1 != k)

/-- `AlertsService.process_alert` (`datetime.now()` passed as `now`). -/
def processAlert (now : Int) (c : Candidate) (s : AState) :
    Option Alert × AState :=
  let alert_id := generateAlertId c
  let recent_resolved := s.alert_history.any (fun h =>
    h.id == alert_id &&
      match h.resolved_at with
      | some r => decide (now - r < 60)
      | none => false)
  if recent_resolved then (none, s)
  else
    match s.active_alerts.lookup alert_id with
    | some existing =>
      if now - existing.updated_at > 60 then
        let upd : Alert :=
          { existing with
            updated_at := now
            occurrence_count := existing.occurrence_count + 1
            details :=
              match c.details with
              | some d => some d
              | none => existing.details }
        (some upd, { s with active_alerts := aupdate s.active_alerts alert_id upd })
      else
        (some existing, s)
    | none =>
      let newAlert : Alert :=
        { id := alert_id, type := c.type, message := c.message
          details := c.details, created_at := now, updated_at := now
          occurrence_count := 1 }
      (some newAlert,
        { s with
          active_alerts := s.active_alerts ++ [(alert_id, newAlert)]
          alert_history := pushHist s.alert_history
            { id := alert_id, type := c.type, message := c.message
              created_at := now, updated_at := now, details := c.details
              occurrence_count := 1 } })

/-- `AlertsService.resolve_alert`. -/
def resolveAlert (now : Int) (alert_id : String) (s : AState) :
    Option Alert × AState :=
  match s.active_alerts.lookup alert_id with
  | none => (none, s)
  | some alert0 =>
    let alert := { alert0 with resolved_at := some now }
    (some alert,
      { s with
        alert_history := pushHist s.alert_history
          { id := alert_id, type := alert.type, message := alert.message
            created_at := alert.created_at, updated_at := alert.updated_at
            resolved_at := some now, details := alert.details
            occurrence_count := alert.occurrence_count, resolved := true }
        active_alerts := adelete s.active_alerts alert_id })

/-- `AlertsService.get_active_alerts`. -/
def getActiveAlerts (s : AState) : List Alert :=
  s.active_alerts.map Prod.snd ++ s.local_alerts.map Prod.snd

/-- Python `list(l)[-limit:]` (for `limit = 0` the slice is the whole list). -/
def lastN {α : Type} (l : List α) (limit : Nat) : List α :=
  if limit == 0 then l else l.drop (l.length - limit)

/-- `AlertsService.get_alert_history`. -/
def getAlertHistory (limit : Nat) (s : AState) : List HistEntry :=
  lastN s.alert_history limit

/-- `AlertsService.clear_old_alerts` (default `max_age_hours = 24`). -/
def clearOldAlerts (now : Int) (max_age_hours : Nat) (s : AState) : AState :=
  { active_alerts := s.active_alerts.filter
      (fun p => decide (now - p.2.updated_at < max_age_hours * 3600))
    alert_history := s.alert_history.filter
      (fun h => decide (now - h.created_at < max_age_hours * 3600))
    local_alerts := s.local_alerts.filter
      (fun p => decide (now - p.2.created_at < max_age_hours * 3600)) }

/-! ### LogManager (`src/log_manager.py`) -/

/-- Calendar timestamp (`datetime` with components; no time zone use in the
source). -/
structure DT where
  year : Nat
  mon : Nat
  day : Nat
  hour : Nat
  minute : Nat
  second : Nat
deriving DecidableEq, Repr

/-- Civil-calendar day number (days-from-civil), for exact `datetime`
subtraction.  All years used are ≥ 1900, so truncating `Int` division
coincides with floor division here. -/
def rataDie (y m d : Nat) : Int :=
  let yS : Int := if m ≤ 2 then (y : Int) - 1 else (y : Int)
  let era : Int := yS / 400
  let yoe : Int := yS - era * 400
  let mp : Int := ((m : Int) + 9) % 12
  let doy : Int := (153 * mp + 2) / 5 + (d : Int) - 1
  let doe : Int := yoe * 365 + yoe / 4 - yoe / 100 + doy
  era * 146097 + doe - 719468

/-- A `datetime` as integer seconds (for `timedelta.total_seconds()`). -/
def dtSecs (t : DT) : Int :=
  rataDie t.year t.mon t.day * 86400 +
    (t.hour : Int) * 3600 + (t.minute : Int) * 60 + (t.second : Int)

/-- `re.match(r"(\w+ \d+ \d+:\d+:\d+) \S+ (.+)", line)`: returns the
timestamp group and the message group.  Every quantified piece is followed by
a character it can never match, so the greedy parse is deterministic; `.`
excludes newlines, so the message group stops at the first `'\n'`. -/
def parseLine (line : String) : Option (String × String) :=
  let cs := line.data
  let mon := cs.takeWhile isWordC
  if mon.isEmpty then none else
  match cs.dropWhile isWordC with
  | ' ' :: r2 =>
    let day := r2.takeWhile isDigitC
    if day.isEmpty then none else
    match r2.dropWhile isDigitC with
    | ' ' :: r4 =>
      let hh := r4.takeWhile isDigitC
      if hh.isEmpty then none else
      match r4.dropWhile isDigitC with
      | ':' :: r6 =>
        let mi := r6.takeWhile isDigitC
        if mi.isEmpty then none else
        match r6.dropWhile isDigitC with
        | ':' :: r8 =>
          let ss := r8.takeWhile isDigitC
          if ss.isEmpty then none else
          match r8.dropWhile isDigitC with
          | ' ' :: r10 =>
            let host := r10.takeWhile (fun c => !isSpaceC c)
            if host.isEmpty then none else
            match r10.dropWhile (fun c => !isSpaceC c) with
            | ' ' :: r12 =>
              let msg := r12.takeWhile (fun c => c ≠ '\n')
              if msg.isEmpty then none
              else some
                (String.mk (mon ++ ' ' :: day ++ ' ' :: hh ++ ':' :: mi ++ ':' :: ss),
                 String.mk msg)
            | _ => none
          | _ => none
        | _ => none
      | _ => none
    | _ => none
  | _ => none

def toLowerC (c : Char) : Char :=
  if isUpperC c then Char.ofNat (c.toNat + 32) else c

/-- `%b`: the C-locale month abbreviations, matched case-insensitively. -/
def monthNum (l : List Char) : Option Nat :=
  let w := l.map toLowerC
  if w == "jan".data then some 1 else if w == "feb".data then some 2
  else if w == "mar".data then some 3 else if w == "apr".data then some 4
  else if w == "may".data then some 5 else if w == "jun".data then some 6
  else if w == "jul".data then some 7 else if w == "aug".data then some 8
  else if w == "sep".data then some 9 else if w == "oct".data then some 10
  else if w == "nov".data then some 11 else if w == "dec".data then some 12
  else none

def digitsVal (l : List Char) : Nat :=
  l.foldl (fun a c => a * 10 + (c.toNat - 48)) 0

/-- Month lengths of 1900 (`strptime` without `%Y` parses into year 1900,
which is not a leap year). -/
def daysIn1900 (m : Nat) : Nat :=
  match m with
  | 1 => 31 | 2 => 28 | 3 => 31 | 4 => 30 | 5 => 31 | 6 => 30
  | 7 => 31 | 8 => 31 | 9 => 30 | 10 => 31 | 11 => 30 | _ => 31

/-- `datetime.strptime(ts, '%b %d %H:%M:%S')` followed by
`.replace(year=year)`: month abbreviation, whitespace runs for the format's
literal spaces, at most two digits per numeric field with `strptime`'s range
checks, full-string match, and the `datetime` constructor's day/second
validation (in year 1900; the later `replace` cannot fail since Feb 29 is
invalid in 1900).  Returns `none` where Python raises `ValueError`. -/
def parseTs (year : Nat) (ts : String) : Option DT :=
  match ts.data with
  | a :: b :: c :: rest =>
    match monthNum [a, b, c] with
    | none => none
    | some mon =>
      if (rest.takeWhile isSpaceC).isEmpty then none else
      let r1 := rest.dropWhile isSpaceC
      let dRun := r1.takeWhile isDigitC
      let day := digitsVal dRun
      if dRun.isEmpty || dRun.length > 2 || day = 0 || day > 31 then none else
      let r2 := r1.dropWhile isDigitC
      if (r2.takeWhile isSpaceC).isEmpty then none else
      let r3 := r2.dropWhile isSpaceC
      let hRun := r3.takeWhile isDigitC
      let hour := digitsVal hRun
      if hRun.isEmpty || hRun.length > 2 || hour > 23 then none else
      match r3.dropWhile isDigitC with
      | ':' :: r4 =>
        let miRun := r4.takeWhile isDigitC
        let minute := digitsVal miRun
        if miRun.isEmpty || miRun.length > 2 || minute > 59 then none else
        match r4.dropWhile isDigitC with
        | ':' :: r5 =>
          let sRun := r5.takeWhile isDigitC
          let second := digitsVal sRun
          if sRun.isEmpty || sRun.length > 2 || second > 59 then none else
          if !(r5.dropWhile isDigitC).isEmpty then none else
          if day > daysIn1900 mon then none else
          some { year := year, mon := mon, day := day,
                 hour := hour, minute := minute, second := second }
        | _ => none
      | _ => none
  | _ => none

/-- `re.sub(r'\d{2}:\d{2}:\d{2}', 'TIME', ·)` — the log-side TIME masking
(no word boundaries, unlike the alerts-side one). -/
def pTime : List Char → List Char
  | c0 :: c1 :: c2 :: c3 :: c4 :: c5 :: c6 :: c7 :: rest =>
    if isDigitC c0 && isDigitC c1 && c2 == ':' && isDigitC c3 && isDigitC c4 &&
        c5 == ':' && isDigitC c6 && isDigitC c7 then
      'T' :: 'I' :: 'M' :: 'E' :: pTime rest
    else
      c0 :: pTime (c1 :: c2 :: c3 :: c4 :: c5 :: c6 :: c7 :: rest)
  | c :: rest => c :: pTime rest
  | [] => []

/-- Scanner state for `re.sub(r'\d+\.\d+', 'NUM', ·)`. -/
inductive PDecSt
  | pout
  | prun (acc : List Char)
  | pdot (acc : List Char)
  | pfrac

def pDecFlush : PDecSt → List Char
  | .pout => []
  | .prun acc => acc.reverse
  | .pdot acc => acc.reverse ++ ['.']
  | .pfrac => numStr

/-- `re.sub(r'\d+\.\d+', 'NUM', ·)`: a digit run not followed by
`.`+digit is left unchanged (no match can start inside it either, since every
restart would need the dot at the same failing position). -/
def pDecGo : PDecSt → List Char → List Char
  | st, [] => pDecFlush st
  | .pout, c :: r =>
    if isDigitC c then pDecGo (.prun [c]) r else c :: pDecGo .pout r
  | .prun acc, c :: r =>
    if isDigitC c then pDecGo (.prun (c :: acc)) r
    else if c == '.' then pDecGo (.pdot acc) r
    else acc.reverse ++ c :: pDecGo .pout r
  | .pdot acc, c :: r =>
    if isDigitC c then pDecGo .pfrac r
    else acc.reverse ++ '.' :: c :: pDecGo .pout r
  | .pfrac, c :: r =>
    if isDigitC c then pDecGo .pfrac r
    else numStr ++ c :: pDecGo .pout r

/-- `re.sub(r'\d+', 'NUM', ·)`: every maximal digit run becomes `NUM`. -/
def pNumGo : Bool → List Char → List Char
  | _, [] => []
  | false, c :: r =>
    if isDigitC c then numStr ++ pNumGo true r else c :: pNumGo false r
  | true, c :: r =>
    if isDigitC c then pNumGo true r else c :: pNumGo false r

/-- `LogManager.get_message_pattern`: TIME, then `\d+\.\d+ → NUM`, then
`\d+ → NUM`, then UUID, then HEX (the last two are vacuous in practice since
all digits are gone, but are embedded for fidelity). -/
def getMessagePattern (msg : String) : String :=
  String.mk (subHex (subUuid (pNumGo false (pDecGo .pout (pTime msg.data)))))

/-- Parse `\d{1,3}` then a literal dot, returning the rest. -/
def quadComp (cs : List Char) : Option (List Char) :=
  let run := cs.takeWhile isDigitC
  if run.isEmpty || run.length > 3 then none
  else
    match cs.dropWhile isDigitC with
    | '.' :: r => some r
    | _ => none

/-- Match `\d{1,3}\.\d{1,3}\.\d{1,3}\.\d{1,3}` anchored only on the right
(`$`-style callers check the rest themselves): returns the rest after the
final full digit run, requiring the final run to have length ≤ 3. -/
def quadAfter (cs : List Char) : Option (List Char) :=
  match quadComp cs with
  | none => none
  | some r1 =>
    match quadComp r1 with
    | none => none
    | some r2 =>
      match quadComp r2 with
      | none => none
      | some r3 =>
        let run := r3.takeWhile isDigitC
        if run.isEmpty || run.length > 3 then none
        else some (r3.dropWhile isDigitC)

/-- `re.sub(r'\n\d{1,3}\.\d{1,3}\.\d{1,3}\.\d{1,3}$', '', ·)`: `$` matches at
the end or just before a final newline. -/
def stripNlIp : List Char → List Char
  | [] => []
  | c :: r =>
    if c == '\n' then
      match quadAfter r with
      | some [] => []
      | some ['\n'] => ['\n']
      | _ => c :: stripNlIp r
    else c :: stripNlIp r

/-- `LogManager.get_base_message`. -/
def getBaseMessage (message : String) : String :=
  match parseLine message with
  | none => message
  | some (_, base) =>
    if containsSub base "MJPG-streamer" && containsSub base "serving client" then
      String.mk (stripNlIp base.data)
    else base

/-- The IP token of `re.search(r'serving client: (\d{1,3}\.\d{1,3}\.\d{1,3}\.\d{1,3})', ·)`
when the literal matches at the head: first three components are full digit
runs of length 1–3 each followed by a dot, the last takes at most its first
three digits (no right anchor). -/
def quadTok (cs : List Char) : Option (List Char) :=
  match quadComp cs with
  | none => none
  | some r1 =>
    match quadComp r1 with
    | none => none
    | some r2 =>
      match quadComp r2 with
      | none => none
      | some r3 =>
        let run := r3.takeWhile isDigitC
        if run.isEmpty then none
        else
          let t1 := cs.takeWhile isDigitC
          let t2 := r1.takeWhile isDigitC
          let t3 := r2.takeWhile isDigitC
          some (t1 ++ '.' :: t2 ++ '.' :: t3 ++ '.' :: run.take 3)

/-- `re.search` for the serving-client IP: leftmost position where the whole
pattern matches. -/
def servingSearch : List Char → Option (List Char)
  | [] => none
  | c :: r =>
    if listStarts "serving client: ".data (c :: r) then
      match quadTok ((c :: r).drop 16) with
      | some tok => some tok
      | none => servingSearch r
    else servingSearch r

/-- The backtracking tail of `re.search(r'Failed to fetch .+ at (http\S+)', ·)`:
given the text after the literal, the greedy `.+` selects the last offset
`q ≥ 1` (within the line, since `.` and `\S` exclude newlines) at which
`' at http'` follows with at least one further non-space character; the
group is `http` plus the maximal non-space run. -/
def fetchScanLast (cur : List Char) (best : Option (List Char)) : Option (List Char) :=
  match cur with
  | [] => best
  | _ :: r =>
    let best2 :=
      if listStarts " at http".data cur then
        let tail8 := cur.drop 8
        match tail8.head? with
        | some h =>
          if !isSpaceC h then
            some ('h' :: 't' :: 't' :: 'p' :: tail8.takeWhile (fun c => !isSpaceC c))
          else best
        | none => best
      else best
    fetchScanLast r best2

/-- `re.search(r'Failed to fetch .+ at (http\S+)', ·)`. -/
def fetchSearch : List Char → Option (List Char)
  | [] => none
  | c :: r =>
    if listStarts "Failed to fetch ".data (c :: r) then
      let line := ((c :: r).drop 16).takeWhile (fun x => x ≠ '\n')
      match fetchScanLast (line.drop 1) none with
      | some u => some u
      | none => fetchSearch r
    else fetchSearch r

/-- Python `str` comparison: lexicographic by code point. -/
def listLt : List Char → List Char → Bool
  | [], [] => false
  | [], _ :: _ => true
  | _ :: _, [] => false
  | a :: as, b :: bs => if a = b then listLt as bs else decide (a < b)

/-- Ascending insertion keeping one copy (Python `sorted(set)`). -/
def insStr (s : String) : List String → List String
  | [] => [s]
  | b :: t =>
    if listLt s.data b.data then s :: b :: t
    else if s == b then b :: t
    else b :: insStr s t

def sortStrsDedup (l : List String) : List String :=
  l.foldl (fun acc s => insStr s acc) []

/-- `LogManager.get_message_details`. -/
def getMessageDetails (raws : List String) : Option (List String) :=
  match raws with
  | [] => none
  | first :: _ =>
    if containsSub first "MJPG-streamer" && containsSub first "serving client" then
      let ips := raws.filterMap (fun m => (servingSearch m.data).map String.mk)
      let sorted := sortStrsDedup ips
      if sorted.isEmpty then none
      else some ["Clients: " ++ String.intercalate ", " sorted]
    else if containsSub first "Failed to fetch" then
      let urls := raws.filterMap (fun m => (fetchSearch m.data).map String.mk)
      let sorted := sortStrsDedup urls
      if sorted.isEmpty then none
      else some ["Failed endpoints: " ++ String.intercalate ", " sorted]
    else none

/-- A row of `log_buffer`; `clear_old_data` reads the `raw` and `pattern`
keys of buffered rows (no code path ever appends rows). -/
structure BufEntry where
  raw : String
  pat : String
deriving DecidableEq, Repr

/-- `last_cleanup_state`. -/
structure CleanupState where
  timestamp : String
  parsed_time : DT
  message : String
deriving DecidableEq, Repr

/-- The structured dict returned by `process_log_entry`. -/
structure LogPre where
  timestamp : String
  message : String
  raw : String
  pat : String
  group_key : String
deriving DecidableEq, Repr

/-- A formatted entry emitted by `process_logs`.  The source dict has keys
`timestamp, message, type, occurrences, raw` and never a `details` key;
`details := none` models that absence. -/
structure LogEntry where
  timestamp : String
  message : String
  type : String
  occurrences : Nat
  raw : String
  details : Option (List String) := none
deriving DecidableEq, Repr

/-- `LogManager` state.  `message_patterns` values are dicts whose only read
is `v.get('parsed_time', ...)`, modelled as the optional `parsed_time`;
`seen_messages` is a set. -/
structure LMState where
  message_patterns : List (String × Option DT) := []
  seen_messages : List String := []
  log_buffer : List BufEntry := []
  last_cleanup_state : Option CleanupState := none
  alerts : AState := {}
deriving DecidableEq, Repr

/-- `strftime('%Y%m%d%H%M')`. -/
def minuteKey (t : DT) : List Char :=
  pad4 t.year ++ pad2 t.mon ++ pad2 t.day ++ pad2 t.hour ++ pad2 t.minute

/-- `LogManager.process_log_entry` (`datetime.now().year` passed as `year`).
Returns the structured dict, or `none` for a non-matching line, an
unparsable timestamp, or a suppressed duplicate `WAIT_FOR_CLEANUP` line. -/
def processLogEntry (year : Nat) (st : LMState) (line : String) :
    Option LogPre × LMState :=
  match parseLine line with
  | none => (none, st)
  | some (ts, msg) =>
    match parseTs year ts with
    | none => (none, st)
    | some dt =>
      let pat := getMessagePattern msg
      let key := pat ++ ":" ++ String.mk (minuteKey dt)
      let entry : LogPre :=
        { timestamp := ts, message := msg, raw := line, pat := pat,
          group_key := key }
      if containsSub msg "WAIT_FOR_CLEANUP" then
        let fresh :=
          match st.last_cleanup_state with
          | none => true
          | some prev => prev.timestamp ≠ ts
        if fresh then
          let cur : CleanupState :=
            { timestamp := ts, parsed_time := dt, message := msg }
          (some entry, { st with last_cleanup_state := some cur })
        else (none, st)
      else (some entry, st)

/-- First phase of `process_logs`: collect one representative per
`group_key`, first one wins, threading the cleanup state. -/
def collectGroups (year : Nat) :
    LMState × List (String × LogPre) → List String → LMState × List (String × LogPre)
  | acc, [] => acc
  | (st, groups), line :: rest =>
    match processLogEntry year st line with
    | (none, st2) => collectGroups year (st2, groups) rest
    | (some e, st2) =>
      if (groups.lookup e.group_key).isSome then
        collectGroups year (st2, groups) rest
      else collectGroups year (st2, groups ++ [(e.group_key, e)]) rest

/-- Severity classification of lines 85–89: `WAR` is checked before `ERR`. -/
def classifyBase (base : String) : String :=
  if containsSub base "WAR" then "warning"
  else if containsSub base "ERR" then "error"
  else "info"

/-- The formatted dict of lines 92–98. -/
def mkFormatted (e : LogPre) : LogEntry :=
  let base := getBaseMessage e.raw
  { timestamp := e.timestamp, message := base, type := classifyBase base,
    occurrences := 1, raw := e.raw }

/-- Second phase of `process_logs`: format each representative, classify, and
feed warning/error entries to the alerts service. -/
def formatGroups (now : Int) :
    AState × List LogEntry → List LogPre → AState × List LogEntry
  | acc, [] => acc
  | (al, out), e :: rest =>
    let base := getBaseMessage e.raw
    let msgType := classifyBase base
    let al2 :=
      if msgType == "warning" || msgType == "error" then
        let alert_id := md5Hex (base ++ ":" ++ e.timestamp)
        (processAlert now
          { cid := some alert_id, type := msgType, message := base,
            details := some { timestamp := e.timestamp, raw_message := e.raw } }
          al).2
      else al
    formatGroups now (al2, out ++ [mkFormatted e]) rest

/-- Sort key of line 117: `datetime.strptime(x['timestamp'], '%b %d %H:%M:%S')`
(year 1900, no replacement).  Every emitted entry's timestamp parses, so the
default is unreachable. -/
def sortKey (e : LogEntry) : Nat :=
  let t := (parseTs 1900 e.timestamp).getD
    { year := 1900, mon := 1, day := 1, hour := 0, minute := 0, second := 0 }
  ((((t.year * 100 + t.mon) * 100 + t.day) * 100 + t.hour) * 100 + t.minute) * 100
    + t.second

/-- Stable descending insertion (CPython `list.sort(key=..., reverse=True)`
keeps the original order of equal keys). -/
def insDesc (e : LogEntry) : List LogEntry → List LogEntry
  | [] => [e]
  | b :: t => if sortKey e > sortKey b then e :: b :: t else b :: insDesc e t

def sortEntries (l : List LogEntry) : List LogEntry :=
  l.foldl (fun acc e => insDesc e acc) []

/-- `LogManager.process_logs`. -/
def processLogs (year : Nat) (now : Int) (st : LMState) (logs : List String) :
    List LogEntry × LMState :=
  let (st2, groups) := collectGroups year (st, []) logs
  let (al, out) := formatGroups now (st2.alerts, []) (groups.map Prod.snd)
  (sortEntries out, { st2 with alerts := al })

/-- `LogManager.get_recent_logs`. -/
def getRecentLogs (limit : Nat) (st : LMState) : List BufEntry :=
  lastN st.log_buffer limit

/-- `LogManager.clear_old_data` (`datetime.now()` passed as `now`; the
nested `clear_old_alerts` call sees the same instant as seconds). -/
def clearOldData (now : DT) (st : LMState) : LMState :=
  let mp := st.message_patterns.filter (fun p =>
    match p.2 with
    | some t => decide (dtSecs now - dtSecs t < 3600)
    | none => true)
  let cleanup :=
    match st.last_cleanup_state with
    | none => none
    | some c =>
      if dtSecs now - dtSecs c.parsed_time > 300 then none else some c
  let seen :=
    if st.seen_messages.length > 10000 then
      (st.log_buffer.map (·.raw)).eraseDups
    else st.seen_messages
  let mp2 :=
    if mp.length > 1000 then
      mp.filter (fun p => (st.log_buffer.map (·.pat)).contains p.1)
    else mp
  { st with
    message_patterns := mp2
    seen_messages := seen
    last_cleanup_state := cleanup
    alerts := clearOldAlerts (dtSecs now) 24 st.alerts }

/-! ### General lemmas about the embedded operations -/

theorem mem_insDesc {x e : LogEntry} {l : List LogEntry} :
    x ∈ insDesc e l ↔ x = e ∨ x ∈ l := by
  induction l with
  | nil => simp [insDesc]
  | cons b t ih =>
    simp only [insDesc]
    split
    · simp
    · simp [ih]
      tauto

theorem mem_sortAux {x : LogEntry} :
    ∀ (l acc : List LogEntry),
      (x ∈ l.foldl (fun a e => insDesc e a) acc ↔ x ∈ acc ∨ x ∈ l) := by
  intro l
  induction l with
  | nil => simp
  | cons e t ih =>
    intro acc
    simp only [List.foldl_cons, ih, mem_insDesc, List.mem_cons]
    tauto

theorem mem_sortEntries {x : LogEntry} {l : List LogEntry} :
    x ∈ sortEntries l ↔ x ∈ l := by
  simpa [sortEntries] using mem_sortAux l []

theorem length_insDesc (e : LogEntry) (l : List LogEntry) :
    (insDesc e l).length = l.length + 1 := by
  induction l with
  | nil => rfl
  | cons b t ih =>
    simp only [insDesc]
    split
    · simp
    · simp [ih]

theorem length_sortAux :
    ∀ (l acc : List LogEntry),
      (l.foldl (fun a e => insDesc e a) acc).length = acc.length + l.length := by
  intro l
  induction l with
  | nil => simp
  | cons e t ih =>
    intro acc
    simp [List.foldl_cons, ih, length_insDesc]
    omega

theorem length_sortEntries (l : List LogEntry) :
    (sortEntries l).length = l.length := by
  simpa [sortEntries] using length_sortAux l []

theorem formatGroups_snd (now : Int) :
    ∀ (pres : List LogPre) (al : AState) (out : List LogEntry),
      (formatGroups now (al, out) pres).2 = out ++ pres.map mkFormatted := by
  intro pres
  induction pres with
  | nil => intro al out; simp [formatGroups]
  | cons e rest ih =>
    intro al out
    simp only [formatGroups, List.map_cons]
    rw [ih]
    simp

theorem buffer_processLogEntry (year : Nat) (st : LMState) (line : String) :
    (processLogEntry year st line).2.log_buffer = st.log_buffer := by
  unfold processLogEntry
  rcases parseLine line with _ | ⟨ts, msg⟩
  · rfl
  · simp only
    rcases parseTs year ts with _ | dt
    · rfl
    · simp only
      split
      · split
        · rfl
        · rfl
      · rfl

theorem buffer_collectGroups (year : Nat) :
    ∀ (logs : List String) (st : LMState) (groups : List (String × LogPre)),
      (collectGroups year (st, groups) logs).1.log_buffer = st.log_buffer := by
  intro logs
  induction logs with
  | nil => intro st groups; rfl
  | cons l rest ih =>
    intro st groups
    simp only [collectGroups]
    rcases h : processLogEntry year st l with ⟨e?, st2⟩
    have hb : st2.log_buffer = st.log_buffer := by
      have := buffer_processLogEntry year st l
      rw [h] at this
      exact this
    rcases e? with _ | e
    · rw [ih st2 groups, hb]
    · simp only
      split
      · rw [ih st2 groups, hb]
      · rw [ih st2 _, hb]

theorem buffer_processLogs (year : Nat) (now : Int) (st : LMState)
    (logs : List String) :
    (processLogs year now st logs).2.log_buffer = st.log_buffer := by
  unfold processLogs
  rcases h : collectGroups year (st, []) logs with ⟨st2, groups⟩
  have := buffer_collectGroups year logs st []
  rw [h] at this
  simpa using this

/-! ### C10: the rolling log buffer is never written -/

/-- The three mutating entry points of `LogManager`. -/
inductive LMOp
  | procLogs (year : Nat) (now : Int) (logs : List String)
  | procEntry (year : Nat) (line : String)
  | clearData (now : DT)

def applyOp (st : LMState) : LMOp → LMState
  | .procLogs year now logs => (processLogs year now st logs).2
  | .procEntry year line => (processLogEntry year st line).2
  | .clearData now => clearOldData now st

/-- Running any sequence of operations from a fresh `LogManager`. -/
def runOps (ops : List LMOp) : LMState := ops.foldl applyOp {}

theorem buffer_applyOp (st : LMState) (op : LMOp) :
    (applyOp st op).log_buffer = st.log_buffer := by
  rcases op with ⟨year, now, logs⟩ | ⟨year, line⟩ | ⟨now⟩
  · exact buffer_processLogs year now st logs
  · exact buffer_processLogEntry year st line
  · rfl

theorem buffer_runAux :
    ∀ (ops : List LMOp) (st : LMState),
      (ops.foldl applyOp st).log_buffer = st.log_buffer := by
  intro ops
  induction ops with
  | nil => intro st; rfl
  | cons op rest ih =>
    intro st
    simp only [List.foldl_cons]
    rw [ih, buffer_applyOp]

/-- C10: no sequence of `process_logs` / `process_log_entry` /
`clear_old_data` calls ever appends to `log_buffer`, so `get_recent_logs`
returns the empty list for every limit. -/
theorem claim_C10 (ops : List LMOp) (limit : Nat) :
    getRecentLogs limit (runOps ops) = [] := by
  have hb : (runOps ops).log_buffer = [] := buffer_runAux ops {}
  unfold getRecentLogs lastN
  rw [hb]
  split <;> simp

/-! ### C8: malformed lines are skipped, the rest of the batch proceeds -/

/-- A line passes the outer grammar and its timestamp parses. -/
def lineOk (year : Nat) (l : String) : Bool :=
  match parseLine l with
  | none => false
  | some (ts, _) => (parseTs year ts).isSome

theorem processLogEntry_bad (year : Nat) (st : LMState) (l : String)
    (h : lineOk year l = false) : processLogEntry year st l = (none, st) := by
  unfold lineOk at h
  cases hp : parseLine l with
  | none => simp [processLogEntry, hp]
  | some p =>
    rw [hp] at h
    obtain ⟨ts, msg⟩ := p
    simp only at h
    cases hq : parseTs year ts with
    | none => simp [processLogEntry, hp, hq]
    | some dt => rw [hq] at h; simp at h

theorem collectGroups_filter (year : Nat) :
    ∀ (logs : List String) (acc : LMState × List (String × LogPre)),
      collectGroups year acc (logs.filter (lineOk year)) =
        collectGroups year acc logs := by
  intro logs
  induction logs with
  | nil => intro acc; rfl
  | cons l rest ih =>
    intro acc
    rcases acc with ⟨st, groups⟩
    by_cases h : lineOk year l = true
    · simp only [List.filter_cons, h, collectGroups]
      rcases processLogEntry year st l with ⟨_ | e, st2⟩
      · exact ih (st2, groups)
      · simp only
        split
        · exact ih (st2, groups)
        · exact ih (st2, _)
    · have h2 : lineOk year l = false := by
        revert h
        cases lineOk year l <;> simp
      simp only [List.filter_cons, h2, cond_false, collectGroups,
        processLogEntry_bad year st l h2]
      exact ih (st, groups)

/-- C8: `process_logs` silently drops every line that fails the outer
grammar or whose timestamp is unparsable and processes the remaining lines
exactly as if the malformed ones were absent (the embedding is total, so no
exception can escape; `ValueError` from `strptime` is modelled by the
`none` branch of `parseTs`). -/
theorem claim_C8 (year : Nat) (now : Int) (st : LMState) (logs : List String) :
    processLogs year now st (logs.filter (lineOk year)) =
      processLogs year now st logs := by
  unfold processLogs
  rw [collectGroups_filter]

/-! ### C9: what `clear_old_alerts` actually evicts -/

/-- C9 (amended): with the default 24-hour horizon, an alert stays in the
active map iff its `updated_at` is younger than 24 hours — its `created_at`
age is irrelevant there — while history records are kept iff their
`created_at` is younger than 24 hours. -/
theorem claim_C9_amended (now : Int) (s : AState) (p : String × Alert)
    (h : HistEntry) :
    (p ∈ (clearOldAlerts now 24 s).active_alerts ↔
      p ∈ s.active_alerts ∧ now - p.2.updated_at < 86400) ∧
    (h ∈ (clearOldAlerts now 24 s).alert_history ↔
      h ∈ s.alert_history ∧ now - h.created_at < 86400) := by
  constructor
  · simp [clearOldAlerts, List.mem_filter]
  · simp [clearOldAlerts, List.mem_filter]

/-- C9 (counterexample): an alert created 25 hours ago but updated one hour
ago survives `clear_old_alerts` in the active map (the claim says it must be
absent), while its history record is dropped. -/
theorem claim_C9_counterexample :
    let a : Alert :=
      { id := "a1", type := "warning", message := "m", details := none,
        created_at := 0, updated_at := 89000, occurrence_count := 3 }
    let h : HistEntry :=
      { id := "a1", type := "warning", message := "m", created_at := 0,
        updated_at := 0, details := none, occurrence_count := 1 }
    let s : AState :=
      { active_alerts := [("a1", a)], alert_history := [h], local_alerts := [] }
    (clearOldAlerts 90000 24 s).active_alerts = [("a1", a)] ∧
      (clearOldAlerts 90000 24 s).alert_history = [] ∧
      90000 - a.created_at > 86400 := by
  decide

/-! ### C2: update/no-op behaviour of `process_alert` on an active id -/

/-- C2 (amended): starting from an empty service, a candidate creates an
alert with `occurrence_count = 1`; a second candidate with the same id
within **at most** 60 seconds returns the existing alert and leaves the
state unchanged, while one **strictly more than** 60 seconds later (the
source tests `time_diff > 60`, not `≥ 60`) increments `occurrence_count` to
2, sets `updated_at` to the new instant, and refreshes `details` from the
candidate. -/
theorem claim_C2_amended (c1 c2 : Candidate) (t0 dt : Int) (d2 : AlertDetails)
    (hid : generateAlertId c2 = generateAlertId c1)
    (hd2 : c2.details = some d2) :
    ((processAlert t0 c1 {}).1.map (fun a => a.occurrence_count) = some 1) ∧
    (dt ≤ 60 →
      processAlert (t0 + dt) c2 (processAlert t0 c1 {}).2 =
        ((processAlert t0 c1 {}).1, (processAlert t0 c1 {}).2)) ∧
    (dt > 60 →
      (processAlert (t0 + dt) c2 (processAlert t0 c1 {}).2).1.map
          (fun a => (a.occurrence_count, a.updated_at, a.details)) =
        some (2, t0 + dt, some d2)) := by
  have hs1 : (processAlert t0 c1 {}).2 =
      { active_alerts := [(generateAlertId c1,
          ⟨generateAlertId c1, c1.type, c1.message, c1.details, t0, t0, none, 1⟩)],
        alert_history := [⟨generateAlertId c1, c1.type, c1.message, t0, t0, none,
          c1.details, 1, false⟩],
        local_alerts := [] } := by
    simp [processAlert, pushHist]
  have hp1 : (processAlert t0 c1 {}).1 =
      some ⟨generateAlertId c1, c1.type, c1.message, c1.details, t0, t0, none, 1⟩ := by
    simp [processAlert]
  have ht : t0 + dt - t0 = dt := by ring
  refine ⟨by simp [hp1], ?_, ?_⟩
  · intro hle
    have hnot : ¬(dt > 60) := by omega
    rw [hs1, hp1]
    simp [processAlert, List.lookup, hid, ht, hnot]
  · intro hgt
    rw [hs1]
    simp [processAlert, List.lookup, hid, ht, hgt, hd2]

/-- Concrete candidate for the C2 witness. -/
def c2w : Candidate :=
  { cid := none, type := "warning", message := "temperature high",
    details := some ⟨"t1", "raw one"⟩ }

theorem claim_C2_witness :
    ((30 : Int) ≤ 60) ∧ ((61 : Int) > 60) ∧
    (processAlert (0 + 30) c2w (processAlert 0 c2w {}).2 =
      ((processAlert 0 c2w {}).1, (processAlert 0 c2w {}).2)) ∧
    ((processAlert (0 + 61) c2w (processAlert 0 c2w {}).2).1.map
        (fun a => (a.occurrence_count, a.updated_at, a.details)) =
      some (2, 0 + 61, some ⟨"t1", "raw one"⟩)) :=
  ⟨by decide, by decide,
   (claim_C2_amended c2w c2w 0 30 ⟨"t1", "raw one"⟩ rfl rfl).2.1 (by decide),
   (claim_C2_amended c2w c2w 0 61 ⟨"t1", "raw one"⟩ rfl rfl).2.2 (by decide)⟩

/-- C2 (counterexample): at *exactly* 60 elapsed seconds the claim demands an
increment (`≥ 60`), but the code (`> 60`) returns the alert with
`occurrence_count` still 1 and the state unchanged. -/
theorem claim_C2_counterexample :
    ((processAlert 60 ⟨none, "error", "overheat", none⟩
        (processAlert 0 ⟨none, "error", "overheat", none⟩ {}).2).1.map
      (fun a => a.occurrence_count) = some 1) ∧
    (processAlert 60 ⟨none, "error", "overheat", none⟩
        (processAlert 0 ⟨none, "error", "overheat", none⟩ {}).2).2 =
      (processAlert 0 ⟨none, "error", "overheat", none⟩ {}).2 := by
  constructor
  · decide
  · decide

/-! ### C3: suppression after resolution -/

/-- C3: create an alert, resolve it at `t1`; a candidate with the same id
strictly within 60 seconds of resolution returns `none` leaving the whole
state (active map and history) unchanged, and once at least 60 seconds have
elapsed an equivalent candidate creates a fresh active alert with
`occurrence_count = 1` and `created_at = t2`, present in the active map. -/
theorem claim_C3 (c : Candidate) (t0 t1 t2 : Int) :
    ((resolveAlert t1 (generateAlertId c) (processAlert t0 c {}).2).1.isSome) ∧
    (t2 - t1 < 60 →
      processAlert t2 c
          (resolveAlert t1 (generateAlertId c) (processAlert t0 c {}).2).2 =
        (none,
          (resolveAlert t1 (generateAlertId c) (processAlert t0 c {}).2).2)) ∧
    (t2 - t1 ≥ 60 →
      ((processAlert t2 c
            (resolveAlert t1 (generateAlertId c) (processAlert t0 c {}).2).2).1.map
          (fun a => (a.occurrence_count, a.created_at)) = some (1, t2)) ∧
      ((processAlert t2 c
            (resolveAlert t1 (generateAlertId c)
              (processAlert t0 c {}).2).2).2.active_alerts.lookup
          (generateAlertId c) =
        (processAlert t2 c
            (resolveAlert t1 (generateAlertId c) (processAlert t0 c {}).2).2).1)) := by
  have hs1 : (processAlert t0 c {}).2 =
      { active_alerts := [(generateAlertId c,
          ⟨generateAlertId c, c.type, c.message, c.details, t0, t0, none, 1⟩)],
        alert_history := [⟨generateAlertId c, c.type, c.message, t0, t0, none,
          c.details, 1, false⟩],
        local_alerts := [] } := by
    simp [processAlert, pushHist]
  have hs2 : (resolveAlert t1 (generateAlertId c) (processAlert t0 c {}).2).2 =
      { active_alerts := [],
        alert_history := [⟨generateAlertId c, c.type, c.message, t0, t0, none,
            c.details, 1, false⟩,
          ⟨generateAlertId c, c.type, c.message, t0, t0, some t1,
            c.details, 1, true⟩],
        local_alerts := [] } := by
    rw [hs1]
    simp [resolveAlert, List.lookup, pushHist, adelete]
  have hr1 : (resolveAlert t1 (generateAlertId c)
      (processAlert t0 c {}).2).1.isSome := by
    rw [hs1]
    simp [resolveAlert, List.lookup]
  refine ⟨hr1, ?_, ?_⟩
  · intro hlt
    rw [hs2]
    simp [processAlert, hlt]
  · intro hge
    have hnot : ¬(t2 - t1 < 60) := by omega
    rw [hs2]
    constructor
    · simp [processAlert, hnot]
    · simp [processAlert, hnot, List.lookup]

/-- Concrete candidate for the C3 witness. -/
def c3w : Candidate :=
  { cid := none, type := "error", message := "bed failure", details := none }

theorem claim_C3_witness :
    ((30 : Int) - 10 < 60) ∧ ((100 : Int) - 10 ≥ 60) ∧
    (processAlert 30 c3w
        (resolveAlert 10 (generateAlertId c3w) (processAlert 0 c3w {}).2).2 =
      (none,
        (resolveAlert 10 (generateAlertId c3w) (processAlert 0 c3w {}).2).2)) ∧
    ((processAlert 100 c3w
          (resolveAlert 10 (generateAlertId c3w) (processAlert 0 c3w {}).2).2).1.map
        (fun a => (a.occurrence_count, a.created_at)) = some (1, 100)) :=
  ⟨by decide, by decide,
   (claim_C3 c3w 0 10 30).2.1 (by decide),
   ((claim_C3 c3w 0 10 100).2.2 (by decide)).1⟩

/-! ### C4: the PrintCore scenario -/

/-- C4 (counterexample): `get_message_pattern` has no PrintCore special case;
on the scenario message it produces the generic masking, not
`"PrintCore 0 extrusion update"`. -/
theorem claim_C4_counterexample :
    getMessagePattern
        "PrintCore 0 extruded 12.3 mm in 1.1 s, remaining length = 800 mm" =
      "PrintCore NUM extruded NUM mm in NUM s, remaining length = NUM mm" ∧
    getMessagePattern
        "PrintCore 0 extruded 12.3 mm in 1.1 s, remaining length = 800 mm" ≠
      "PrintCore 0 extrusion update" := by
  constructor
  · decide
  · decide

/-- C4 (amended): the scenario line is emitted as a single `info` entry whose
message is the raw message (no details are attached — the formatted dict has
no `details` key), and its grouping pattern is the generic masking. -/
theorem claim_C4_amended :
    (processLogs 2026 0 {}
        ["Jun 5 14:22:01 printer01 PrintCore 0 extruded 12.3 mm in 1.1 s, remaining length = 800 mm"]).1 =
      [{ timestamp := "Jun 5 14:22:01",
         message := "PrintCore 0 extruded 12.3 mm in 1.1 s, remaining length = 800 mm",
         type := "info", occurrences := 1,
         raw := "Jun 5 14:22:01 printer01 PrintCore 0 extruded 12.3 mm in 1.1 s, remaining length = 800 mm",
         details := none }] ∧
    ((processLogEntry 2026 {}
        "Jun 5 14:22:01 printer01 PrintCore 0 extruded 12.3 mm in 1.1 s, remaining length = 800 mm").1.map
      (fun e => e.pat)) =
      some "PrintCore NUM extruded NUM mm in NUM s, remaining length = NUM mm" := by
  constructor
  · decide
  · decide

/-! ### C7: MJPG-streamer client collapsing -/

/-- C7 (counterexample): the two serving-client lines collapse into one
entry, but that entry carries **no** details — `process_logs` never calls
`get_message_details` — where the claim demands
`"Clients: 10.0.0.2, 10.0.0.5"`. -/
theorem claim_C7_counterexample :
    ((processLogs 2026 0 {}
        ["Jun 5 14:22:10 printer01 MJPG-streamer [123]: serving client: 10.0.0.5",
         "Jun 5 14:22:11 printer01 MJPG-streamer [124]: serving client: 10.0.0.2"]).1.map
      (fun e => e.details)) = [none] ∧
    (none : Option (List String)) ≠ some ["Clients: 10.0.0.2, 10.0.0.5"] := by
  constructor
  · decide
  · decide

/-- C7 (amended): the two lines (same pattern, same minute) do collapse into
exactly one emitted entry, but that entry has no details field; the unused
helper `get_message_details` would have produced the sorted deduplicated
client list the claim describes, had it been wired in. -/
theorem claim_C7_amended :
    ((processLogs 2026 0 {}
        ["Jun 5 14:22:10 printer01 MJPG-streamer [123]: serving client: 10.0.0.5",
         "Jun 5 14:22:11 printer01 MJPG-streamer [124]: serving client: 10.0.0.2"]).1.length = 1) ∧
    ((processLogs 2026 0 {}
        ["Jun 5 14:22:10 printer01 MJPG-streamer [123]: serving client: 10.0.0.5",
         "Jun 5 14:22:11 printer01 MJPG-streamer [124]: serving client: 10.0.0.2"]).1.map
      (fun e => e.details)) = [none] ∧
    getMessageDetails
        ["Jun 5 14:22:10 printer01 MJPG-streamer [123]: serving client: 10.0.0.5",
         "Jun 5 14:22:11 printer01 MJPG-streamer [124]: serving client: 10.0.0.2"] =
      some ["Clients: 10.0.0.2, 10.0.0.5"] := by
  refine ⟨?_, ?_, ?_⟩
  · decide
  · decide
  · decide

/-! ### Shared facts about `process_logs` output -/

theorem processLogs_fst (year : Nat) (now : Int) (st : LMState)
    (logs : List String) :
    (processLogs year now st logs).1 =
      sortEntries
        (((collectGroups year (st, []) logs).2.map Prod.snd).map mkFormatted) := by
  unfold processLogs
  rcases hc : collectGroups year (st, []) logs with ⟨st2, groups⟩
  have h2 := formatGroups_snd now (groups.map Prod.snd) st2.alerts []
  simp only [List.nil_append] at h2
  simp only [hc, h2, List.map_map]

theorem mem_processLogs (year : Nat) (now : Int) (st : LMState)
    (logs : List String) (e : LogEntry)
    (he : e ∈ (processLogs year now st logs).1) :
    ∃ p : LogPre, e = mkFormatted p := by
  rw [processLogs_fst] at he
  rw [mem_sortEntries] at he
  simp only [List.mem_map] at he
  obtain ⟨p, _, hp⟩ := he
  exact ⟨p, hp.symm⟩

theorem processLogEntry_ok (year : Nat) (st : LMState) (l ts msg : String)
    (dt : DT) (hp : parseLine l = some (ts, msg))
    (ht : parseTs year ts = some dt)
    (hcl : containsSub msg "WAIT_FOR_CLEANUP" = false) :
    processLogEntry year st l =
      (some ⟨ts, msg, l, getMessagePattern msg,
        getMessagePattern msg ++ ":" ++ String.mk (minuteKey dt)⟩, st) := by
  simp [processLogEntry, hp, ht, hcl]

/-! ### C1: one entry per (pattern, minute) bucket, `occurrences` hard-wired -/

/-- C1 (amended): every entry emitted by `process_logs` has
`occurrences = 1` — the count is hard-coded, never the bucket size — and two
well-formed non-cleanup lines whose messages normalise to the same pattern
within the same calendar minute are emitted as exactly one entry. -/
theorem claim_C1_amended :
    (∀ (year : Nat) (now : Int) (st : LMState) (logs : List String)
        (e : LogEntry), e ∈ (processLogs year now st logs).1 →
      e.occurrences = 1) ∧
    (∀ (year : Nat) (now : Int) (st : LMState)
        (l1 l2 ts1 msg1 ts2 msg2 : String) (dt1 dt2 : DT),
      parseLine l1 = some (ts1, msg1) → parseTs year ts1 = some dt1 →
      containsSub msg1 "WAIT_FOR_CLEANUP" = false →
      parseLine l2 = some (ts2, msg2) → parseTs year ts2 = some dt2 →
      containsSub msg2 "WAIT_FOR_CLEANUP" = false →
      getMessagePattern msg1 = getMessagePattern msg2 →
      minuteKey dt1 = minuteKey dt2 →
      (processLogs year now st [l1, l2]).1.length = 1) := by
  constructor
  · intro year now st logs e he
    obtain ⟨p, hp⟩ := mem_processLogs year now st logs e he
    subst hp
    rfl
  · intro year now st l1 l2 ts1 msg1 ts2 msg2 dt1 dt2 hp1 ht1 hc1 hp2 ht2 hc2
      hpat hmin
    rw [processLogs_fst, length_sortEntries]
    simp only [List.length_map]
    have e1 := processLogEntry_ok year st l1 ts1 msg1 dt1 hp1 ht1 hc1
    have e2 := processLogEntry_ok year st l2 ts2 msg2 dt2 hp2 ht2 hc2
    simp [collectGroups, e1, e2, List.lookup, hpat, hmin]

theorem claim_C1_witness :
    (({ timestamp := "Jun 5 14:22:01",
        message := "PrintCore 0 extruded 12.3 mm in 1.1 s, remaining length = 800 mm",
        type := "info", occurrences := 1,
        raw := "Jun 5 14:22:01 printer01 PrintCore 0 extruded 12.3 mm in 1.1 s, remaining length = 800 mm",
        details := none : LogEntry}).occurrences = 1) ∧
    ((processLogs 2026 0 {}
        ["Jun 5 14:22:01 printer01 PrintCore 0 extruded 12.3 mm in 1.1 s, remaining length = 800 mm",
         "Jun 5 14:22:05 printer01 PrintCore 1 extruded 9.9 mm in 2.0 s, remaining length = 780 mm"]).1.length = 1) :=
  ⟨claim_C1_amended.1 2026 0 {}
      ["Jun 5 14:22:01 printer01 PrintCore 0 extruded 12.3 mm in 1.1 s, remaining length = 800 mm"]
      _ (by decide),
   claim_C1_amended.2 2026 0 {} _ _ "Jun 5 14:22:01"
      "PrintCore 0 extruded 12.3 mm in 1.1 s, remaining length = 800 mm"
      "Jun 5 14:22:05"
      "PrintCore 1 extruded 9.9 mm in 2.0 s, remaining length = 780 mm"
      ⟨2026, 6, 5, 14, 22, 1⟩ ⟨2026, 6, 5, 14, 22, 5⟩
      (by decide) (by decide) (by decide) (by decide) (by decide) (by decide)
      (by decide) (by decide)⟩

/-- C1 (counterexample): two lines contribute to the same
(pattern, minute) bucket, yet the single emitted entry reports
`occurrences = 1`, not 2. -/
theorem claim_C1_counterexample :
    ((processLogs 2026 0 {}
        ["Jun 5 14:22:01 printer01 PrintCore 0 extruded 12.3 mm in 1.1 s, remaining length = 800 mm",
         "Jun 5 14:22:05 printer01 PrintCore 1 extruded 9.9 mm in 2.0 s, remaining length = 780 mm"]).1.map
      (fun e => e.occurrences) = [1]) ∧
    ((processLogs 2026 0 {}
        ["Jun 5 14:22:01 printer01 PrintCore 0 extruded 12.3 mm in 1.1 s, remaining length = 800 mm",
         "Jun 5 14:22:05 printer01 PrintCore 1 extruded 9.9 mm in 2.0 s, remaining length = 780 mm"]).1.map
      (fun e => e.occurrences) ≠ [2]) := by
  constructor
  · decide
  · decide

/-! ### C6: severity classification precedence -/

/-- C6 (amended): the emitted type is `"warning"` whenever the base message
contains `"WAR"` — `WAR` is checked **before** `ERR`, so a message containing
both is classified `"warning"`, not `"error"`; `"error"` only applies when
`ERR` occurs without `WAR`. -/
theorem claim_C6_amended (year : Nat) (now : Int) (st : LMState)
    (logs : List String) (e : LogEntry)
    (he : e ∈ (processLogs year now st logs).1) :
    e.type =
      (if containsSub e.message "WAR" then "warning"
       else if containsSub e.message "ERR" then "error"
       else "info") := by
  obtain ⟨p, hp⟩ := mem_processLogs year now st logs e he
  subst hp
  simp [mkFormatted, classifyBase]

theorem claim_C6_witness :
    ({ timestamp := "Jun 5 14:22:30", message := "WAR ERR both tokens",
       type := "warning", occurrences := 1,
       raw := "Jun 5 14:22:30 printer01 WAR ERR both tokens",
       details := none : LogEntry }).type =
      (if containsSub "WAR ERR both tokens" "WAR" then "warning"
       else if containsSub "WAR ERR both tokens" "ERR" then "error"
       else "info") :=
  claim_C6_amended 2026 0 {}
    ["Jun 5 14:22:30 printer01 WAR ERR both tokens"] _ (by decide)

/-- C6 (counterexample): a base message containing both `"WAR"` and `"ERR"`
is emitted as `"warning"`, where the claim requires `"error"`. -/
theorem claim_C6_counterexample :
    ((processLogs 2026 0 {}
        ["Jun 5 14:22:30 printer01 WAR ERR both tokens"]).1.map
      (fun e => e.type) = ["warning"]) ∧
    ("warning" : String) ≠ "error" := by
  constructor
  · decide
  · decide


/-! ### C5: identity stability of alert ids under token variation -/

/-- A message template: fixed literal text interleaved with variable tokens
(an `HH:MM:SS` timestamp or a bare integer). -/
inductive Frag
  | lit (s : List Char)
  | timeTok (a b c : Nat)
  | intTok (n : Nat)
deriving DecidableEq, Repr

def renderFrag : Frag → List Char
  | .lit s => s
  | .timeTok a b c => pad2 a ++ ':' :: pad2 b ++ ':' :: pad2 c
  | .intTok n => decDigits n

def renderT : List Frag → List Char
  | [] => []
  | f :: rest => renderFrag f ++ renderT rest

/-- The literal skeleton of a template: what remains when token values are
forgotten. -/
inductive SkelF
  | slit (s : List Char)
  | stime
  | sint
deriving DecidableEq, Repr

def skelOf : Frag → SkelF
  | .lit s => .slit s
  | .timeTok _ _ _ => .stime
  | .intTok _ => .sint

/-- Mask time tokens to their post-TIME-substitution text. -/
def mask1 : Frag → Frag
  | .timeTok _ _ _ => .lit ['T', 'I', 'M', 'E']
  | f => f

/-- Mask every token to its placeholder. -/
def maskAll : Frag → Frag
  | .timeTok _ _ _ => .lit ['T', 'I', 'M', 'E']
  | .intTok _ => .lit ['N', 'U', 'M']
  | f => f

def fragOkPrev : Option Char → Bool
  | none => true
  | some c => c == ' '

def headCharT : List Frag → Option Char
  | [] => none
  | .lit s :: _ => s.head?
  | .timeTok a _ _ :: _ => (pad2 a).head?
  | .intTok n :: _ => (decDigits n).head?

/-- Well-formedness of a template, tracking the previous rendered character:
literals are nonempty and digit-free; each token is delimited by a space (or
a string end) on both sides; no integer token renders as exactly two digits
(such a token after a capitalised three-letter word would be DATE-masked). -/
def wfFrags : Option Char → List Frag → Bool
  | _, [] => true
  | _, .lit s :: rest =>
    !s.isEmpty && s.all (fun c => !isDigitC c) && wfFrags s.getLast? rest
  | prev, .timeTok _ _ c :: rest =>
    fragOkPrev prev && fragOkPrev (headCharT rest) &&
      wfFrags (some (digitChar (c % 10))) rest
  | prev, .intTok n :: rest =>
    fragOkPrev prev && fragOkPrev (headCharT rest) &&
      !((decDigits n).length == 2) && wfFrags (decDigits n).getLast? rest

theorem digitChar_digit (k : Nat) (h : k < 10) : isDigitC (digitChar k) = true := by
  interval_cases k <;> decide

theorem decD_spec :
    ∀ (fuel n : Nat), n < fuel →
      (decD fuel n).all isDigitC = true ∧ decD fuel n ≠ [] := by
  intro fuel
  induction fuel with
  | zero => intro n h; omega
  | succ f ih =>
    intro n h
    by_cases h10 : n < 10
    · simp [decD, h10, digitChar_digit n h10]
    · have hd : n / 10 < f := by
        have := Nat.div_lt_self (show 0 < n by omega) (show 1 < 10 by omega)
        omega
      obtain ⟨ha, hn⟩ := ih (n / 10) hd
      have hm : n % 10 < 10 := Nat.mod_lt _ (by omega)
      constructor
      · simp [decD, h10, List.all_append, ha, digitChar_digit _ hm]
      · simp [decD, h10]

theorem decDigits_all (n : Nat) : (decDigits n).all isDigitC = true :=
  (decD_spec (n + 1) n (by omega)).1

theorem decDigits_ne_nil (n : Nat) : decDigits n ≠ [] :=
  (decD_spec (n + 1) n (by omega)).2

theorem digit_not_colon {c : Char} (h : isDigitC c = true) : (c == ':') = false := by
  by_contra hb
  have : c = ':' := by
    have := eq_of_beq (a := c) (b := ':') (by revert hb; cases (c == ':') <;> simp)
    exact this
  subst this
  simp [isDigitC] at h

theorem digit_not_space {c : Char} (h : isDigitC c = true) : (c == ' ') = false := by
  by_contra hb
  have : c = ' ' := by
    have := eq_of_beq (a := c) (b := ' ') (by revert hb; cases (c == ' ') <;> simp)
    exact this
  subst this
  simp [isDigitC] at h

theorem digit_word {c : Char} (h : isDigitC c = true) : isWordC c = true := by
  simp [isWordC, h]

/-- Last rendered character after a chunk, falling back to the previous. -/
def lastO (s : List Char) (prev : Option Char) : Option Char :=
  match s.getLast? with
  | some c => some c
  | none => prev

theorem lastO_cons (c : Char) (s : List Char) (prev : Option Char) :
    lastO (c :: s) prev = lastO s (some c) := by
  cases s with
  | nil => simp [lastO]
  | cons d t =>
    unfold lastO
    rw [List.getLast?_cons_cons]
    cases h : (d :: t).getLast? with
    | none => exact absurd (List.getLast?_eq_none_iff.mp h) (by simp)
    | some x => rfl

theorem lastO_ne_nil {s : List Char} (h : s ≠ []) (prev : Option Char) :
    lastO s prev = s.getLast? := by
  cases hs : s.getLast? with
  | none => exact absurd (List.getLast?_eq_none_iff.mp hs) h
  | some c => simp [lastO, hs]

theorem aTime_skip0 (prev : Option Char) (c : Char) (l : List Char)
    (h : isDigitC c = false) :
    aTime prev (c :: l) = c :: aTime (some c) l := by
  rcases l with _ | ⟨c1, _ | ⟨c2, _ | ⟨c3, _ | ⟨c4, _ | ⟨c5, _ | ⟨c6, _ | ⟨c7, rest⟩⟩⟩⟩⟩⟩⟩ <;>
    simp [aTime, h]

theorem aTime_skip1 (prev : Option Char) (c0 c1 : Char) (l : List Char)
    (h : isDigitC c1 = false) :
    aTime prev (c0 :: c1 :: l) = c0 :: aTime (some c0) (c1 :: l) := by
  rcases l with _ | ⟨c2, _ | ⟨c3, _ | ⟨c4, _ | ⟨c5, _ | ⟨c6, _ | ⟨c7, rest⟩⟩⟩⟩⟩⟩ <;>
    simp [aTime, h]

theorem aTime_skip2 (prev : Option Char) (c0 c1 c2 : Char) (l : List Char)
    (h : (c2 == ':') = false) :
    aTime prev (c0 :: c1 :: c2 :: l) = c0 :: aTime (some c0) (c1 :: c2 :: l) := by
  rcases l with _ | ⟨c3, _ | ⟨c4, _ | ⟨c5, _ | ⟨c6, _ | ⟨c7, rest⟩⟩⟩⟩⟩ <;>
    simp [aTime, h]

theorem aTime_lit (s : List Char) (hd : s.all (fun c => !isDigitC c) = true) :
    ∀ (prev : Option Char) (y : List Char),
      aTime prev (s ++ y) = s ++ aTime (lastO s prev) y := by
  induction s with
  | nil => intro prev y; simp [lastO]
  | cons c t ih =>
    intro prev y
    simp only [List.all_cons, Bool.and_eq_true, Bool.not_eq_eq_eq_not,
      Bool.not_true] at hd
    rw [List.cons_append, aTime_skip0 prev c (t ++ y) (by simpa using hd.1),
      ih (by simpa using hd.2) (some c) y, lastO_cons]
    rfl

theorem aTime_digits (ds : List Char) (hd : ds.all isDigitC = true) :
    ∀ (y : List Char), (y = [] ∨ y.head? = some ' ') →
    ∀ (prev : Option Char),
      aTime prev (ds ++ y) = ds ++ aTime (lastO ds prev) y := by
  induction ds with
  | nil => intro y hy prev; simp [lastO]
  | cons d t ih =>
    intro y hy prev
    simp only [List.all_cons, Bool.and_eq_true] at hd
    have step : aTime prev ((d :: t) ++ y) = d :: aTime (some d) (t ++ y) := by
      rcases t with _ | ⟨d2, _ | ⟨d3, t3⟩⟩
      · rcases hy with rfl | hy
        · simp [aTime]
        · rcases y with _ | ⟨y0, y2⟩
          · simp [aTime]
          · simp only [List.head?_cons, Option.some.injEq] at hy
            subst hy
            exact aTime_skip1 prev d ' ' y2 (by decide)
      · rcases hy with rfl | hy
        · simp [aTime]
        · rcases y with _ | ⟨y0, y2⟩
          · simp [aTime]
          · simp only [List.head?_cons, Option.some.injEq] at hy
            subst hy
            exact aTime_skip2 prev d d2 ' ' (y2) (by decide)
      · have hd3 : isDigitC d3 = true := by
          simp only [List.all_cons, Bool.and_eq_true] at hd
          exact hd.2.2.1
        exact aTime_skip2 prev d d2 d3 (t3 ++ y) (digit_not_colon hd3)
    rw [step, ih hd.2 y hy (some d), lastO_cons]
    rfl

theorem space_nonword : nonWordO (some ' ') = true := by decide

theorem fragOkPrev_nonword {prev : Option Char} (h : fragOkPrev prev = true) :
    nonWordO prev = true := by
  cases prev with
  | none => rfl
  | some c =>
    simp only [fragOkPrev] at h
    have : c = ' ' := eq_of_beq h
    subst this
    decide

theorem aTime_mask (a b c : Nat) (prev : Option Char) (y : List Char)
    (hp : nonWordO prev = true) (hy : y = [] ∨ y.head? = some ' ') :
    aTime prev (renderFrag (.timeTok a b c) ++ y) =
      'T' :: 'I' :: 'M' :: 'E' :: aTime (some (digitChar (c % 10))) y := by
  have hy2 : nonWordO y.head? = true := by
    rcases hy with rfl | hy
    · rfl
    · rw [hy]; exact space_nonword
  have d1 : isDigitC (digitChar (a % 100 / 10)) = true :=
    digitChar_digit _ (by omega)
  have d2 : isDigitC (digitChar (a % 10)) = true :=
    digitChar_digit _ (Nat.mod_lt _ (by omega))
  have d3 : isDigitC (digitChar (b % 100 / 10)) = true :=
    digitChar_digit _ (by omega)
  have d4 : isDigitC (digitChar (b % 10)) = true :=
    digitChar_digit _ (Nat.mod_lt _ (by omega))
  have d5 : isDigitC (digitChar (c % 100 / 10)) = true :=
    digitChar_digit _ (by omega)
  have d6 : isDigitC (digitChar (c % 10)) = true :=
    digitChar_digit _ (Nat.mod_lt _ (by omega))
  simp [renderFrag, pad2, aTime, hp, hy2, d1, d2, d3, d4, d5, d6]

theorem digitChar_not_space (k : Nat) : (digitChar k == ' ') = false := by
  unfold digitChar
  split <;> decide

theorem nextFact (rest : List Frag) (p2 : Option Char)
    (hw : wfFrags p2 rest = true) (hn : fragOkPrev (headCharT rest) = true) :
    (renderT rest = [] ∨ (renderT rest).head? = some ' ') ∧
    (renderT (rest.map mask1) = [] ∨
      (renderT (rest.map mask1)).head? = some ' ') := by
  cases rest with
  | nil => exact ⟨Or.inl rfl, Or.inl rfl⟩
  | cons f r2 =>
    cases f with
    | lit s =>
      simp only [wfFrags, Bool.and_eq_true] at hw
      obtain ⟨⟨hne, _⟩, _⟩ := hw
      cases s with
      | nil => simp at hne
      | cons c t =>
        simp only [headCharT, List.head?_cons, fragOkPrev] at hn
        have hc : c = ' ' := eq_of_beq hn
        subst hc
        constructor
        · right
          simp [renderT, renderFrag]
        · right
          simp [renderT, renderFrag, mask1]
    | timeTok a b c =>
      exfalso
      simp only [headCharT, pad2, List.head?_cons, fragOkPrev] at hn
      rw [digitChar_not_space] at hn
      exact Bool.false_ne_true hn
    | intTok n =>
      exfalso
      rcases hd : decDigits n with _ | ⟨d, ds⟩
      · exact decDigits_ne_nil n hd
      · simp only [headCharT, hd, List.head?_cons, fragOkPrev] at hn
        have : isDigitC d = true := by
          have := decDigits_all n
          rw [hd] at this
          simp only [List.all_cons, Bool.and_eq_true] at this
          exact this.1
        rw [digit_not_space this] at hn
        exact Bool.false_ne_true hn

theorem aTime_render :
    ∀ (t : List Frag) (prev : Option Char), wfFrags prev t = true →
      aTime prev (renderT t) = renderT (t.map mask1) := by
  intro t
  induction t with
  | nil => intro prev _; rfl
  | cons f rest ih =>
    intro prev hw
    cases f with
    | lit s =>
      simp only [wfFrags, Bool.and_eq_true] at hw
      obtain ⟨⟨hne, hal⟩, hwr⟩ := hw
      have hsne : s ≠ [] := by
        cases s
        · simp at hne
        · simp
      show aTime prev (s ++ renderT rest) = s ++ renderT (rest.map mask1)
      rw [aTime_lit s hal prev (renderT rest), lastO_ne_nil hsne prev,
        ih s.getLast? hwr]
    | timeTok a b c =>
      simp only [wfFrags, Bool.and_eq_true] at hw
      obtain ⟨⟨hp, hn⟩, hwr⟩ := hw
      have hy := (nextFact rest _ hwr hn).1
      show aTime prev (renderFrag (.timeTok a b c) ++ renderT rest) = _
      rw [aTime_mask a b c prev (renderT rest) (fragOkPrev_nonword hp) hy,
        ih _ hwr]
      rfl
    | intTok n =>
      simp only [wfFrags, Bool.and_eq_true] at hw
      obtain ⟨⟨⟨hp, hn⟩, hlen⟩, hwr⟩ := hw
      have hy := (nextFact rest _ hwr hn).1
      show aTime prev (decDigits n ++ renderT rest) = _
      rw [aTime_digits (decDigits n) (decDigits_all n) (renderT rest) hy prev,
        lastO_ne_nil (decDigits_ne_nil n) prev, ih _ hwr]
      rfl

/-- Can a `' '\d\d\b` tail begin right here (the digit part of a possible
DATE match)? -/
def isoHead : List Char → Bool
  | d1 :: d2 :: b => isDigitC d1 && isDigitC d2 && nonWordO b.head?
  | _ => false

/-- Does the string contain a space followed by exactly two digits at a word
boundary — the only place a DATE match can put its `\d{2}\b`? -/
def hasIsoPair : List Char → Bool
  | [] => false
  | c :: rest => (c == ' ' && isoHead rest) || hasIsoPair rest

theorem isoHead_nondigit {d : Char} (w : List Char) (h : isDigitC d = false) :
    isoHead (d :: w) = false := by
  cases w <;> simp [isoHead, h]

theorem hasIso_tail {c : Char} {l : List Char}
    (h : hasIsoPair (c :: l) = false) : hasIsoPair l = false := by
  simp only [hasIsoPair, Bool.or_eq_false_iff] at h
  exact h.2

theorem dateSkip (prev : Option Char) (c : Char) (l : List Char)
    (h : hasIsoPair (c :: l) = false) :
    aDate prev (c :: l) = c :: aDate (some c) l := by
  rcases l with _ | ⟨c1, _ | ⟨c2, _ | ⟨c3, _ | ⟨c4, _ | ⟨c5, rest⟩⟩⟩⟩⟩
  · simp [aDate]
  · simp [aDate]
  · simp [aDate]
  · simp [aDate]
  · simp [aDate]
  · by_cases hcond : (nonWordO prev && isUpperC c && isLowerC c1 && isLowerC c2 &&
        (c3 == ' ') && isDigitC c4 && isDigitC c5 && nonWordO rest.head?) = true
    · exfalso
      simp only [Bool.and_eq_true] at hcond
      obtain ⟨⟨⟨⟨⟨⟨⟨_, _⟩, _⟩, _⟩, hsp⟩, hd4⟩, hd5⟩, hnw⟩ := hcond
      have h3 : hasIsoPair (c3 :: c4 :: c5 :: rest) = false :=
        hasIso_tail (hasIso_tail (hasIso_tail h))
      simp [hasIsoPair, isoHead, hsp, hd4, hd5, hnw] at h3
    · have hc2 : (nonWordO prev && isUpperC c && isLowerC c1 && isLowerC c2 &&
          (c3 == ' ') && isDigitC c4 && isDigitC c5 && nonWordO rest.head?) = false := by
        revert hcond
        cases (nonWordO prev && isUpperC c && isLowerC c1 && isLowerC c2 &&
          (c3 == ' ') && isDigitC c4 && isDigitC c5 && nonWordO rest.head?) <;> simp
      simp [aDate, hc2]

theorem dateId : ∀ (l : List Char) (prev : Option Char),
    hasIsoPair l = false → aDate prev l = l := by
  intro l
  induction l with
  | nil => intro prev _; rfl
  | cons c t ih =>
    intro prev h
    rw [dateSkip prev c t h, ih (some c) (hasIso_tail h)]

theorem hasIso_lit :
    ∀ (s : List Char), s.all (fun c => !isDigitC c) = true →
    ∀ (y : List Char), isoHead y = false → hasIsoPair y = false →
      hasIsoPair (s ++ y) = false := by
  intro s
  induction s with
  | nil => intro _ y _ hy; simpa using hy
  | cons c t ih =>
    intro hall y hiso hy
    simp only [List.all_cons, Bool.and_eq_true, Bool.not_eq_eq_eq_not,
      Bool.not_true] at hall
    have htail : hasIsoPair (t ++ y) = false := ih (by simpa using hall.2) y hiso hy
    have hhead : (c == ' ' && isoHead (t ++ y)) = false := by
      rcases t with _ | ⟨a, t2⟩
      · simp only [List.nil_append]
        cases hcs : (c == ' ')
        · simp
        · simp [hiso]
      · have ha : isDigitC a = false := by
          have h2 := hall.2
          simp only [List.all_cons, Bool.and_eq_true, Bool.not_eq_eq_eq_not,
            Bool.not_true] at h2
          simpa using h2.1
        rw [List.cons_append, isoHead_nondigit (t2 ++ y) ha]
        simp
    simp [hasIsoPair, hhead, htail]

theorem hasIso_digits :
    ∀ (ds : List Char), ds.all isDigitC = true →
    ∀ (y : List Char), hasIsoPair (ds ++ y) = hasIsoPair y := by
  intro ds
  induction ds with
  | nil => intro _ y; rfl
  | cons d t ih =>
    intro hall y
    simp only [List.all_cons, Bool.and_eq_true] at hall
    rw [List.cons_append]
    simp only [hasIsoPair, digit_not_space hall.1, Bool.false_and,
      Bool.false_or]
    exact ih hall.2 y

/-- After well-formedness, no DATE digit-pair can start at the head of the
rest of a (time-masked) rendering. -/
theorem isoHeadNext (rest : List Frag) (p2 : Option Char)
    (hw : wfFrags p2 rest = true) :
    isoHead (renderT (rest.map mask1)) = false := by
  cases rest with
  | nil => rfl
  | cons f r2 =>
    cases f with
    | lit s =>
      simp only [wfFrags, Bool.and_eq_true] at hw
      obtain ⟨⟨hne, hall⟩, _⟩ := hw
      cases s with
      | nil => simp at hne
      | cons c t =>
        simp only [List.all_cons, Bool.and_eq_true, Bool.not_eq_eq_eq_not,
          Bool.not_true] at hall
        show isoHead ((c :: t) ++ _) = false
        rw [List.cons_append]
        exact isoHead_nondigit _ (by simpa using hall.1)
    | timeTok a b c =>
      show isoHead (('T' :: ['I', 'M', 'E']) ++ _) = false
      rw [List.cons_append]
      exact isoHead_nondigit _ (by decide)
    | intTok n =>
      simp only [wfFrags, Bool.and_eq_true] at hw
      obtain ⟨⟨⟨_, hn⟩, hlen⟩, hwr⟩ := hw
      rcases hd : decDigits n with _ | ⟨d1, ds1⟩
      · exact absurd hd (decDigits_ne_nil n)
      · rcases ds1 with _ | ⟨d2, ds2⟩
        · -- single digit: the second character is the following space or end
          show isoHead ((decDigits n) ++ renderT (r2.map mask1)) = false
          rw [hd]
          have hy := (nextFact r2 _ hwr hn).2
          rcases hy with hnil | hsp
          · rw [hnil]
            rfl
          · rcases hz : renderT (r2.map mask1) with _ | ⟨z0, zs⟩
            · rfl
            · rw [hz] at hsp
              simp only [List.head?_cons, Option.some.injEq] at hsp
              subst hsp
              have hds : isDigitC ' ' = false := by decide
              simp [isoHead, hds]
        · rcases ds2 with _ | ⟨d3, ds3⟩
          · -- exactly two digits: excluded by well-formedness
            exfalso
            rw [hd] at hlen
            simp at hlen
          · -- three or more digits: the third digit is a word character
            show isoHead ((decDigits n) ++ renderT (r2.map mask1)) = false
            rw [hd]
            have hall := decDigits_all n
            rw [hd] at hall
            simp only [List.all_cons, Bool.and_eq_true] at hall
            have h3 : isDigitC d3 = true := hall.2.2.1
            simp [isoHead, nonWordO, digit_word h3]

/-- A well-formed time-masked rendering contains no DATE match site. -/
theorem noIso_render :
    ∀ (t : List Frag) (prev : Option Char), wfFrags prev t = true →
      hasIsoPair (renderT (t.map mask1)) = false := by
  intro t
  induction t with
  | nil => intro _ _; rfl
  | cons f rest ih =>
    intro prev hw
    cases f with
    | lit s =>
      simp only [wfFrags, Bool.and_eq_true] at hw
      obtain ⟨⟨hne, hall⟩, hwr⟩ := hw
      show hasIsoPair (s ++ renderT (rest.map mask1)) = false
      exact hasIso_lit s hall _ (isoHeadNext rest _ hwr) (ih _ hwr)
    | timeTok a b c =>
      simp only [wfFrags, Bool.and_eq_true] at hw
      obtain ⟨⟨hp, hn⟩, hwr⟩ := hw
      show hasIsoPair (['T', 'I', 'M', 'E'] ++ renderT (rest.map mask1)) = false
      exact hasIso_lit _ (by decide) _ (isoHeadNext rest _ hwr) (ih _ hwr)
    | intTok n =>
      simp only [wfFrags, Bool.and_eq_true] at hw
      obtain ⟨⟨⟨hp, hn⟩, hlen⟩, hwr⟩ := hw
      show hasIsoPair (decDigits n ++ renderT (rest.map mask1)) = false
      rw [hasIso_digits (decDigits n) (decDigits_all n)]
      exact ih _ hwr

theorem numGo_lit :
    ∀ (s : List Char), s.all (fun c => !isDigitC c) = true → s ≠ [] →
    ∀ (p : Bool) (y : List Char),
      numGo (.outside p) (s ++ y) = s ++ numGo (.outside false) y := by
  intro s
  induction s with
  | nil => intro _ h; exact absurd rfl h
  | cons c t ih =>
    intro hall _ p y
    have hc : isDigitC c = false := by
      simp only [List.all_cons, Bool.and_eq_true, Bool.not_eq_eq_eq_not,
        Bool.not_true] at hall
      simpa using hall.1
    have step : numGo (.outside p) ((c :: t) ++ y) =
        c :: numGo (.outside false) (t ++ y) := by
      simp [numGo, hc]
    rcases t with _ | ⟨a, t2⟩
    · simpa using step
    · rw [step, ih (by
        simp only [List.all_cons, Bool.and_eq_true, Bool.not_eq_eq_eq_not,
          Bool.not_true] at hall
        simp [List.all_cons, hall.2.1, hall.2.2]) (by simp) false y]
      rfl

theorem numGo_run :
    ∀ (ds : List Char), ds.all isDigitC = true →
    ∀ (y : List Char), (y = [] ∨ y.head? = some ' ') →
    ∀ (acc : List Char),
      numGo (.run acc) (ds ++ y) = numStr ++ numGo (.outside false) y := by
  intro ds
  induction ds with
  | nil =>
    intro _ y hy acc
    rcases hy with rfl | hy
    · simp [numGo, numFlush]
    · rcases y with _ | ⟨y0, y2⟩
      · simp [numGo, numFlush]
      · simp only [List.head?_cons, Option.some.injEq] at hy
        subst hy
        simp [numGo, show isDigitC ' ' = false by decide]
  | cons d t ih =>
    intro hall y hy acc
    simp only [List.all_cons, Bool.and_eq_true] at hall
    rw [List.cons_append]
    show numGo (.run acc) (d :: (t ++ y)) = _
    rw [show numGo (.run acc) (d :: (t ++ y)) =
        numGo (.run (d :: acc)) (t ++ y) by simp [numGo, hall.1]]
    exact ih hall.2 y hy (d :: acc)

theorem numGo_int (ds : List Char) (hall : ds.all isDigitC = true)
    (hne : ds ≠ []) (y : List Char) (hy : y = [] ∨ y.head? = some ' ') :
    numGo (.outside false) (ds ++ y) = numStr ++ numGo (.outside false) y := by
  rcases ds with _ | ⟨d, t⟩
  · exact absurd rfl hne
  · simp only [List.all_cons, Bool.and_eq_true] at hall
    rw [List.cons_append,
      show numGo (.outside false) (d :: (t ++ y)) =
        numGo (.run [d]) (t ++ y) by simp [numGo, hall.1]]
    exact numGo_run t hall.2 y hy [d]

theorem numRender :
    ∀ (t : List Frag) (prev : Option Char), wfFrags prev t = true →
      numGo (.outside false) (renderT (t.map mask1)) =
        renderT (t.map maskAll) := by
  intro t
  induction t with
  | nil => intro _ _; rfl
  | cons f rest ih =>
    intro prev hw
    cases f with
    | lit s =>
      simp only [wfFrags, Bool.and_eq_true] at hw
      obtain ⟨⟨hne, hall⟩, hwr⟩ := hw
      have hsne : s ≠ [] := by
        cases s
        · simp at hne
        · simp
      show numGo (.outside false) (s ++ renderT (rest.map mask1)) =
        s ++ renderT (rest.map maskAll)
      rw [numGo_lit s hall hsne false _, ih _ hwr]
    | timeTok a b c =>
      simp only [wfFrags, Bool.and_eq_true] at hw
      obtain ⟨⟨hp, hn⟩, hwr⟩ := hw
      show numGo (.outside false)
          (['T', 'I', 'M', 'E'] ++ renderT (rest.map mask1)) =
        ['T', 'I', 'M', 'E'] ++ renderT (rest.map maskAll)
      rw [numGo_lit _ (by decide) (by simp) false _, ih _ hwr]
    | intTok n =>
      simp only [wfFrags, Bool.and_eq_true] at hw
      obtain ⟨⟨⟨hp, hn⟩, hlen⟩, hwr⟩ := hw
      have hy := (nextFact rest _ hwr hn).2
      show numGo (.outside false)
          (decDigits n ++ renderT (rest.map mask1)) =
        numStr ++ renderT (rest.map maskAll)
      rw [numGo_int (decDigits n) (decDigits_all n) (decDigits_ne_nil n) _ hy,
        ih _ hwr]

theorem maskAll_skel :
    ∀ (t1 t2 : List Frag), t1.map skelOf = t2.map skelOf →
      t1.map maskAll = t2.map maskAll := by
  intro t1
  induction t1 with
  | nil =>
    intro t2 h
    cases t2 with
    | nil => rfl
    | cons f r => simp at h
  | cons f1 r1 ih =>
    intro t2 h
    cases t2 with
    | nil => simp at h
    | cons f2 r2 =>
      simp only [List.map_cons, List.cons.injEq] at h ⊢
      refine ⟨?_, ih r2 h.2⟩
      have h1 := h.1
      cases f1 <;> cases f2 <;> simp_all [skelOf, maskAll]

/-- None of the three special literal phrases occurs in the message. -/
def noPhrases (m : String) : Bool :=
  !(containsSub m "Build has completed and is waiting for cleanup" ||
    containsSub m "Next update check scheduled for" ||
    containsSub m "Stardust service connection issues")

/-- For a well-formed template without special phrases, `_normalize_message`
is the UUID/HEX passes applied to the fully masked rendering: the TIME pass
masks each time token, the DATE pass is the identity, and the NUM pass masks
each integer token. -/
theorem normalize_render (t : List Frag) (hw : wfFrags none t = true)
    (hph : noPhrases (String.mk (renderT t)) = true) :
    normalizeMessage (String.mk (renderT t)) =
      String.mk (subHex (subUuid (renderT (t.map maskAll)))) := by
  have hph2 := hph
  simp only [noPhrases, Bool.not_eq_true', Bool.or_eq_false_iff] at hph2
  obtain ⟨⟨h1, h2⟩, h3⟩ := hph2
  unfold normalizeMessage
  rw [h1, h2, h3]
  simp only [Bool.false_eq_true, if_false]
  rw [aTime_render t none hw,
    dateId _ none (noIso_render t none hw), numRender t none hw]

/-- C5 (amended): two alert candidates of the same type whose messages are
renderings of well-formed templates with the same literal skeleton — i.e.
differ only in the values of space-delimited `HH:MM:SS` timestamp tokens and
bare integer tokens that do not render as exactly two digits — and that
contain none of the three special phrases, receive the same alert id.
(UUID tokens are excluded: the NUM pass runs before the UUID pass and mangles
digit-bearing UUIDs value-dependently — see the counterexample; two-digit
integers are excluded because after a capitalised three-letter word plus
space they are DATE-masked, e.g. "Mon 12" → "DATE" but "Mon 9" → "Mon NUM".) -/
theorem claim_C5_amended (ty : String) (t1 t2 : List Frag)
    (hw1 : wfFrags none t1 = true) (hw2 : wfFrags none t2 = true)
    (hsk : t1.map skelOf = t2.map skelOf)
    (hph1 : noPhrases (String.mk (renderT t1)) = true)
    (hph2 : noPhrases (String.mk (renderT t2)) = true) :
    generateAlertId ⟨none, ty, String.mk (renderT t1), none⟩ =
      generateAlertId ⟨none, ty, String.mk (renderT t2), none⟩ := by
  unfold generateAlertId
  simp only
  rw [normalize_render t1 hw1 hph1, normalize_render t2 hw2 hph2,
    maskAll_skel t1 t2 hsk]

/-- Concrete templates for the C5 witness: same skeleton, different token
values. -/
def c5t1 : List Frag :=
  [Frag.lit "error in job ".data, Frag.intTok 5, Frag.lit " at ".data,
   Frag.timeTok 14 2 11]

def c5t2 : List Frag :=
  [Frag.lit "error in job ".data, Frag.intTok 777, Frag.lit " at ".data,
   Frag.timeTok 9 30 5]

theorem claim_C5_witness :
    generateAlertId ⟨none, "warning", String.mk (renderT c5t1), none⟩ =
      generateAlertId ⟨none, "warning", String.mk (renderT c5t2), none⟩ :=
  claim_C5_amended "warning" c5t1 c5t2 (by decide) (by decide) (by decide)
    (by decide) (by decide)

/-- C5 (counterexample): two messages differing only in a UUID-shaped token
(`8-4-4-4-12` lowercase hex) get different ids: the NUM substitution runs
before the UUID substitution, turns the digit runs of each UUID into `NUM`
in different positions, and the UUID pattern then no longer matches. -/
theorem claim_C5_counterexample :
    normalizeMessage "task ab123456-aaaa-aaaa-aaaa-aaaaaaaaaaaa failed" =
      "task abNUM-aaaa-aaaa-aaaa-aaaaaaaaaaaa failed" ∧
    normalizeMessage "task 123456ab-aaaa-aaaa-aaaa-aaaaaaaaaaaa failed" =
      "task NUMab-aaaa-aaaa-aaaa-aaaaaaaaaaaa failed" ∧
    generateAlertId
        ⟨none, "error", "task ab123456-aaaa-aaaa-aaaa-aaaaaaaaaaaa failed", none⟩ ≠
      generateAlertId
        ⟨none, "error", "task 123456ab-aaaa-aaaa-aaaa-aaaaaaaaaaaa failed", none⟩ := by
  refine ⟨by decide, by decide, by decide⟩
